import Mathlib

/-!
Tunnel client handshake (`src/tunnel/client.go`)

A shallow embedding of the client side of the tunnel handshake: the encoder of the
connect request inside `sendConnectData`, the response reader `receiveOk`, and the
drivers `connect` and `NewClient`, and of the relay `Bind`.

Go values are embedded as follows.

* A `byte` is a `Fin 256`; the conversion `byte(n)` is `n % 2^8`, `uint16(p)` is `p % 2^16`.
* A Go `string` is the list of its bytes (`len` counts bytes, `[]byte(s)` lists them).
* An `error` is an `Option String`: `none` is `nil`, `some msg` is `errors.New(msg)`.
* A `net.Conn` is a state of an arbitrary transport together with the trace of the
  calls made on it.  The transport (`Write`, `Read`, `Close`) is a parameter, so the
  theorems hold for every behaviour of the peer and of the network.
* A run-time panic (index out of range) is the result `none` of the encoder.
-/

namespace Tunnel

/-! ## Bytes and integer conversions -/

/-- A Go `byte`. -/
abbrev Byte := Fin 256

/-- The Go conversion `byte(n)`: the low eight bits of `n`. -/
def byte (n : Nat) : Byte := ⟨n % 2 ^ 8, Nat.mod_lt n (by decide)⟩

/-- The Go conversion `uint16(p)` of an `int`: the low sixteen bits of `p`
(two's complement, so a negative `p` wraps around). -/
def uint16 (p : Int) : Nat := (p % 2 ^ 16).toNat

/-- The two bytes stored by `binary.BigEndian.PutUint16(bs, v)`:
`bs[0] = byte(v >> 8)` and `bs[1] = byte(v)`. -/
def PutUint16 (v : Nat) : List Byte := [byte (v / 2 ^ 8), byte v]

/-- A Go `error`: `none` is `nil`. -/
abbrev Err := Option String

/-- Modelled from the spec: the constant `VER01` is declared outside the files at hand;
the end-to-end scenario of the specification fixes the version marker to `0x01`. -/
def VER01 : Byte := 0x01

/-- Modelled from the spec: the declaration of `Config` is missing from the sources.
The fields are the ones `client.go` reads; strings are byte lists, the two ports are Go
`int`s, and `TargetType` is stored into the frame without conversion, hence a byte. -/
structure Config where
  ServerHostname : List Byte
  ServerPort : Int
  ServerUsername : List Byte
  ServerPassword : List Byte
  TargetHostOrIp : List Byte
  TargetPort : Int
  TargetType : Byte

/-! ## Connections -/

/-- A call made on a connection. -/
inductive Event where
  | write (data : List Byte)
  | read (size : Nat)
  | close
  deriving DecidableEq

/-- The method set of `net.Conn` used by the client, over transport states `σ`.

* `Write s data` returns the count `n`, the error and the next state.
* `Read s k` is a `Read` into a fresh buffer of `k` bytes; it returns the bytes that
  were stored into the buffer (their number is the returned count `n`), the error and
  the next state.
* `Close s` is the state after `Close` (whose own result the client ignores). -/
structure Transport (σ : Type) where
  Write : σ → List Byte → (Int × Err) × σ
  Read : σ → Nat → (List Byte × Err) × σ
  Close : σ → σ

/-- A connection: the state of its transport and the calls made on it, oldest first. -/
structure Conn (σ : Type) where
  state : σ
  trace : List Event

/-- The call `conn.Write(data)`, recorded in the trace. -/
def Conn.Write {σ : Type} (t : Transport σ) (c : Conn σ) (data : List Byte) :
    (Int × Err) × Conn σ :=
  ((t.Write c.state data).1, ⟨(t.Write c.state data).2, c.trace ++ [Event.write data]⟩)

/-- The call `conn.Read(buf)` with `len(buf) = k`, recorded in the trace. -/
def Conn.Read {σ : Type} (t : Transport σ) (c : Conn σ) (k : Nat) :
    (List Byte × Err) × Conn σ :=
  ((t.Read c.state k).1, ⟨(t.Read c.state k).2, c.trace ++ [Event.read k]⟩)

/-- The call `conn.Close()`, recorded in the trace. -/
def Conn.Close {σ : Type} (t : Transport σ) (c : Conn σ) : Conn σ :=
  ⟨t.Close c.state, c.trace ++ [Event.close]⟩

/-- The payloads of the `Write` calls of a trace, oldest first. -/
def writes : List Event → List (List Byte)
  | [] => []
  | Event.write data :: es => data :: writes es
  | _ :: es => writes es

/-- The buffer sizes of the `Read` calls of a trace, oldest first. -/
def reads : List Event → List Nat
  | [] => []
  | Event.read k :: es => k :: reads es
  | _ :: es => reads es

/-- The client structure: the endpoint connection and the configuration. -/
structure Client (σ : Type) where
  serverConn : Conn σ
  config : Config

/-! ## The request encoder (first part of `sendConnectData`) -/

/-- A byte slice under construction, with the indices stored to so far, oldest first. -/
structure Buffer where
  data : List Byte
  stores : List Nat

/-- The allocation `make([]byte, n)`: `n` zero bytes. -/
def Buffer.make (n : Nat) : Buffer := ⟨List.replicate n 0, []⟩

/-- The store `data[index] = d`; `none` is the panic on an index out of range. -/
def Buffer.store (b : Buffer) (index : Nat) (d : Byte) : Option Buffer :=
  if index < b.data.length then some ⟨b.data.set index d, b.stores ++ [index]⟩ else none

/-- The loop `for _, d := range src { data[index] = d; index++ }`; returns the buffer
and the index after the loop. -/
def rangeStore : List Byte → Buffer → Nat → Option (Buffer × Nat)
  | [], b, index => some (b, index)
  | d :: ds, b, index => (b.store index d).bind fun b1 => rangeStore ds b1 (index + 1)

/-- The value `dataLength` computed at the head of `sendConnectData`. -/
def dataLength (config : Config) : Nat :=
  let userInfoLen := 1 + 1 + config.ServerUsername.length + 1 + config.ServerPassword.length
  let targetInfoLen := 2 + 1 + 1 + config.TargetHostOrIp.length
  userInfoLen + targetInfoLen

/-- The statements of `sendConnectData` that fill `data`, up to the call of `Write`;
returns the buffer and the final value of `index`. -/
def connectData (config : Config) : Option (Buffer × Nat) :=
  let data := Buffer.make (dataLength config)
  (data.store 0 VER01).bind fun data =>
  (data.store 1 (byte config.ServerUsername.length)).bind fun data =>
  let index := 2
  (rangeStore config.ServerUsername data index).bind fun (data, index) =>
  (data.store index (byte config.ServerPassword.length)).bind fun data =>
  let index := index + 1
  (rangeStore config.ServerPassword data index).bind fun (data, index) =>
  let bs := PutUint16 (uint16 config.TargetPort)
  (rangeStore bs data index).bind fun (data, index) =>
  (data.store index config.TargetType).bind fun data =>
  let index := index + 1
  (data.store index (byte config.TargetHostOrIp.length)).bind fun data =>
  let index := index + 1
  rangeStore config.TargetHostOrIp data index

/-! ## The handshake -/

/-- The method `sendConnectData`: build the frame, write it once, and on a short or
failed write close the connection and return an error. -/
def sendConnectData {σ : Type} (t : Transport σ) (c : Client σ) : Option (Err × Client σ) :=
  (connectData c.config).bind fun (data, _) =>
  let r := c.serverConn.Write t data.data
  if r.1.1 ≠ (dataLength c.config : Int) ∨ r.1.2 ≠ none then
    some (some "写入数据失败", ⟨r.2.Close t, c.config⟩)
  else
    some (none, ⟨r.2, c.config⟩)

/-- The method `receiveOk`: four single `Read` calls (version, status, message length,
message), each checked for its count and error. -/
def receiveOk {σ : Type} (t : Transport σ) (c : Client σ) : Err × Client σ :=
  let ver := c.serverConn.Read t 1
  if (ver.1.1.length : Int) ≠ 1 ∨ ver.1.2 ≠ none then
    (some "读取应答版本号失败", ⟨ver.2.Close t, c.config⟩)
  else if VER01 ≠ ver.1.1.headD 0 then
    (some "不支持的协议版本", ⟨ver.2, c.config⟩)
  else
    let code := ver.2.Read t 1
    if (code.1.1.length : Int) ≠ 1 ∨ code.1.2 ≠ none then
      (some "读取响应码失败", ⟨code.2.Close t, c.config⟩)
    else if 0x00 ≠ code.1.1.headD 0 then
      (some "未识别的响应码", ⟨code.2, c.config⟩)
    else
      let msgLen := code.2.Read t 1
      if (msgLen.1.1.length : Int) ≠ 1 ∨ msgLen.1.2 ≠ none then
        (some "读取消息长度失败", ⟨msgLen.2.Close t, c.config⟩)
      else
        let msg := msgLen.2.Read t (msgLen.1.1.headD 0).val
        if (msg.1.1.length : Int) ≠ ((msgLen.1.1.headD 0).val : Int) ∨ msg.1.2 ≠ none then
          (some "读取消息失败", ⟨msg.2.Close t, c.config⟩)
        else
          (none, ⟨msg.2, c.config⟩)

/-- The method `connect`: send the request, then read the response. -/
def connect {σ : Type} (t : Transport σ) (c : Client σ) : Option (Err × Client σ) :=
  (sendConnectData t c).bind fun r =>
  if r.1 ≠ none then some (r.1, r.2)
  else
    let r2 := receiveOk t r.2
    if r2.1 ≠ none then some (r2.1, r2.2)
    else some (none, r2.2)

/-- The function `NewClient`.  `dial host port` stands for
`tls.Dial("tcp", fmt.Sprintf("%v:%d", host, port), nil)`: it yields a fresh connection
state or an error.  The result is the pair `(*Client, error)`, a nil pointer being
`none`. -/
def NewClient {σ : Type} (dial : List Byte → Int → Except String σ) (t : Transport σ)
    (config : Config) : Option (Option (Client σ) × Err) :=
  match dial config.ServerHostname config.ServerPort with
  | Except.error err => some (none, some err)
  | Except.ok conn =>
    let client : Client σ := ⟨⟨conn, []⟩, config⟩
    (connect t client).bind fun r =>
    if r.1 ≠ none then some (none, r.1)
    else some (some r.2, none)

/-! ## The relay (`Bind`)

`Bind` runs two control flows: the caller, and the task started by the `go` statement.
Each is a short straight-line program; the scheduler decides whose turn it is, and the
environment decides when a call of `io.Copy` returns and with what result.  A run of
`Bind` is a list of actions, each enabled at the program point it belongs to. -/

/-- The program points of the caller of `Bind`.

* `entry`: `defer src.Close()` is registered, the `go` statement is next;
* `copying`: inside `io.Copy(src, c.serverConn)`;
* `closing ret`: `return ret` was executed, the deferred `src.Close()` is next;
* `returned ret`: `Bind` has returned `ret` to its caller. -/
inductive CallerPc where
  | entry
  | copying
  | closing (ret : Err)
  | returned (ret : Err)
  deriving DecidableEq

/-- The program points of the task started by the `go` statement.

* `idle`: not started yet;
* `copying`: inside `io.Copy(c.serverConn, src)`;
* `closing`: the copy has returned, the deferred `c.serverConn.Close()` is next;
* `done`: the task has ended. -/
inductive TaskPc where
  | idle
  | copying
  | closing
  | done
  deriving DecidableEq

/-- The state of a run of `Bind`: the two program points, and whether `Close` has been
called on the local connection `src` and on the endpoint connection `c.serverConn`. -/
structure BindState where
  caller : CallerPc
  task : TaskPc
  srcClosed : Bool
  serverClosed : Bool
  deriving DecidableEq

/-- One step of a run of `Bind`.

* `go`: the caller executes the `go` statement;
* `callerCopyReturns n err`: the caller's `io.Copy(src, c.serverConn)` returns `n, err`;
* `callerDefer`: the caller's deferred `src.Close()` runs and `Bind` returns;
* `taskCopyReturns n err`: the task's `io.Copy(c.serverConn, src)` returns `n, err`;
* `taskDefer`: the task's deferred `c.serverConn.Close()` runs and the task ends. -/
inductive BindAction where
  | go
  | callerCopyReturns (n : Int) (err : Err)
  | callerDefer
  | taskCopyReturns (n : Int) (err : Err)
  | taskDefer
  deriving DecidableEq

/-- The state in which `Bind` is entered. -/
def Bind.init : BindState := ⟨CallerPc.entry, TaskPc.idle, false, false⟩

/-- The effect of an action; `none` when the action is not enabled in the state.  Both
calls of `io.Copy` have their results discarded (`_, _ = io.Copy(...)`), and the
statement after the caller's copy is `return nil`. -/
def Bind.step (s : BindState) : BindAction → Option BindState
  | BindAction.go =>
    if s.caller = CallerPc.entry then
      some ⟨CallerPc.copying, TaskPc.copying, s.srcClosed, s.serverClosed⟩
    else none
  | BindAction.callerCopyReturns _ _ =>
    if s.caller = CallerPc.copying then
      some ⟨CallerPc.closing none, s.task, s.srcClosed, s.serverClosed⟩
    else none
  | BindAction.callerDefer =>
    match s.caller with
    | CallerPc.closing ret => some ⟨CallerPc.returned ret, s.task, true, s.serverClosed⟩
    | _ => none
  | BindAction.taskCopyReturns _ _ =>
    if s.task = TaskPc.copying then
      some ⟨s.caller, TaskPc.closing, s.srcClosed, s.serverClosed⟩
    else none
  | BindAction.taskDefer =>
    if s.task = TaskPc.closing then
      some ⟨s.caller, TaskPc.done, s.srcClosed, true⟩
    else none

/-- A run: the actions of a schedule, one after the other. -/
def Bind.run (s : BindState) : List BindAction → Option BindState
  | [] => some s
  | a :: as => (Bind.step s a).bind fun s1 => Bind.run s1 as

/-! ## The request layout of the specification, and its decoder -/

/-- The request layout of the specification, written out field by field: version,
username length, username, password length, password, port (two bytes, big-endian),
target type, host length, host.  Lengths and port are taken as they are (no reduction);
`byte` only fits them into the byte type. -/
def requestLayout (config : Config) : List Byte :=
  [VER01, byte config.ServerUsername.length] ++ config.ServerUsername ++
    [byte config.ServerPassword.length] ++ config.ServerPassword ++
    PutUint16 (uint16 config.TargetPort) ++
    [config.TargetType, byte config.TargetHostOrIp.length] ++ config.TargetHostOrIp

/-- The connect request of the specification, as a decoder of the layout sees it. -/
structure ConnectRequest where
  version : Byte
  username : List Byte
  password : List Byte
  targetPort : Nat
  targetType : Byte
  targetHost : List Byte
  deriving DecidableEq

/-- Split off a field of exactly `n` bytes; `none` when fewer bytes are left. -/
def takeField (n : Nat) (bs : List Byte) : Option (List Byte × List Byte) :=
  if n ≤ bs.length then some (bs.take n, bs.drop n) else none

/-- A decoder that follows the request layout of the specification: each length byte
announces the number of bytes of the field after it, the port is big-endian, and the
frame ends with the host. -/
def decodeConnectRequest : List Byte → Option ConnectRequest
  | version :: usernameLen :: rest =>
    (takeField usernameLen.val rest).bind fun (username, rest) =>
    match rest with
    | passwordLen :: rest =>
      (takeField passwordLen.val rest).bind fun (password, rest) =>
      match rest with
      | portHi :: portLo :: targetType :: targetHostLen :: rest =>
        (takeField targetHostLen.val rest).bind fun (targetHost, rest) =>
        if rest = [] then
          some ⟨version, username, password, portHi.val * 256 + portLo.val, targetType,
            targetHost⟩
        else none
      | _ => none
    | _ => none
  | _ => none

/-- The fields of a configuration that the connect request carries. -/
def Config.request (config : Config) : ConnectRequest :=
  ⟨VER01, config.ServerUsername, config.ServerPassword, config.TargetPort.toNat,
    config.TargetType, config.TargetHostOrIp⟩

/-- A configuration within the limits of the layout: the three strings are at most 255
bytes long and the target port is in `0..65535`. -/
def Config.valid (config : Config) : Prop :=
  config.ServerUsername.length ≤ 255 ∧ config.ServerPassword.length ≤ 255 ∧
    config.TargetHostOrIp.length ≤ 255 ∧ 0 ≤ config.TargetPort ∧ config.TargetPort ≤ 65535

instance (config : Config) : Decidable config.valid := by
  unfold Config.valid; infer_instance

/-! ## A stream transport

The peer's response arrives as a sequence of deliveries.  A `Read` into a buffer of `k`
bytes returns at once with what the delivery at the head of the queue holds, at most `k`
bytes; the rest of that delivery stays queued.  A `Read` into an empty buffer returns
`0, nil`; a `Read` on an exhausted stream returns `0, EOF`. -/

/-- `Read` on a queue of deliveries. -/
def streamRead : List (List Byte) → Nat → (List Byte × Err) × List (List Byte)
  | ds, 0 => (([], none), ds)
  | [], _ + 1 => (([], some "EOF"), [])
  | [] :: ds, k + 1 => streamRead ds (k + 1)
  | (b :: bs) :: ds, k + 1 => (((b :: bs).take (k + 1), none), (b :: bs).drop (k + 1) :: ds)

/-- A transport whose `Write` accepts every frame in full and whose `Read` serves the
queued deliveries. -/
def stream : Transport (List (List Byte)) :=
  ⟨fun ds data => ((data.length, none), ds), streamRead, fun ds => ds⟩

/-- A transport whose `Write` accepts at most `k` bytes and reports a short write as an
error; `Read` as in `stream`. -/
def shortStream (k : Nat) : Transport (List (List Byte)) :=
  ⟨fun ds data =>
      ((min k data.length, if k < data.length then some "short write" else none), ds),
    streamRead, fun ds => ds⟩

/-- A dialer that always connects, to a stream with the given deliveries queued. -/
def dialStream (ds : List (List Byte)) : List Byte → Int → Except String (List (List Byte)) :=
  fun _ _ => Except.ok ds

/-- A dialer that never connects. -/
def dialRefused : List Byte → Int → Except String (List (List Byte)) :=
  fun _ _ => Except.error "connection refused"

/-! ## Sample configurations -/

/-- The end-to-end scenario: user `bob`, password `pw`, host `example.com`, port 80,
type 1. -/
def bobConfig : Config :=
  ⟨[0x74, 0x75, 0x6e], 443, [0x62, 0x6f, 0x62], [0x70, 0x77],
    [0x65, 0x78, 0x61, 0x6d, 0x70, 0x6c, 0x65, 0x2e, 0x63, 0x6f, 0x6d], 80, 1⟩

/-- A configuration with a three-byte username, a five-byte password and an empty host. -/
def shortConfig : Config :=
  ⟨[0x74, 0x75, 0x6e], 443, [0x62, 0x6f, 0x62], [0x70, 0x77, 0x70, 0x77, 0x70], [], 80, 1⟩

/-- A configuration whose username is 256 bytes long. -/
def longUserConfig : Config :=
  ⟨[0x74, 0x75, 0x6e], 443, List.replicate 256 0x61, [], [], 80, 1⟩

/-- A client for `longUserConfig` on a fresh connection with nothing to read. -/
def longUserClient : Client (List (List Byte)) := ⟨⟨[], []⟩, longUserConfig⟩

/-! ## Auxiliary definitions for the proofs -/

/-- A buffer of `total` bytes whose first bytes `w` have been stored, in order. -/
def filled (total : Nat) (w : List Byte) : Buffer :=
  ⟨w ++ List.replicate (total - w.length) 0, List.range w.length⟩

/-- The handshake outcome in the words of the specification: the dial succeeded, the
whole request was written, the version byte read equals `VER01`, the status byte read
equals `0x00`, and the length byte and the full message were read. -/
def handshakeSucceeds {σ : Type} (dial : List Byte → Int → Except String σ)
    (t : Transport σ) (config : Config) : Prop :=
  match dial config.ServerHostname config.ServerPort with
  | Except.error _ => False
  | Except.ok s0 =>
    let w := t.Write s0 (requestLayout config)
    let ver := t.Read w.2 1
    let code := t.Read ver.2 1
    let len := t.Read code.2 1
    let msg := t.Read len.2 (len.1.1.headD 0).val
    (w.1.1 = ((requestLayout config).length : Int) ∧ w.1.2 = none) ∧
      (ver.1.1 = [VER01] ∧ ver.1.2 = none) ∧
      (code.1.1 = [0x00] ∧ code.1.2 = none) ∧
      (len.1.1.length = 1 ∧ len.1.2 = none) ∧
      (msg.1.1.length = (len.1.1.headD 0).val ∧ msg.1.2 = none)

/-! ## The encoder computes the request layout -/

theorem make_eq_filled (n : Nat) : Buffer.make n = filled n [] := by
  simp [Buffer.make, filled]

theorem store_filled (total : Nat) (w : List Byte) (index : Nat) (d : Byte)
    (hi : index = w.length) (hlt : w.length < total) :
    (filled total w).store index d = some (filled total (w ++ [d])) := by
  subst hi
  obtain ⟨n, hn⟩ : ∃ n, total - w.length = n + 1 := ⟨total - w.length - 1, by omega⟩
  have hn2 : total - (w.length + 1) = n := by omega
  simp [Buffer.store, filled, hn, hn2, List.replicate_succ, List.range_succ]

theorem rangeStore_filled (total : Nat) (ds : List Byte) :
    ∀ (w : List Byte) (index : Nat), index = w.length → w.length + ds.length ≤ total →
      rangeStore ds (filled total w) index
        = some (filled total (w ++ ds), index + ds.length) := by
  induction ds with
  | nil => intro w index hi _; simp [rangeStore]
  | cons d ds ih =>
    intro w index hi hle
    have hlt : w.length < total := by simp at hle; omega
    rw [rangeStore, store_filled total w index d hi hlt]
    simp only [Option.some_bind]
    rw [ih (w ++ [d]) (index + 1) (by simp [hi]) (by simp at hle ⊢; omega)]
    simp
    omega

theorem connectData_eq (config : Config) :
    connectData config
      = some (⟨requestLayout config, List.range (dataLength config)⟩, dataLength config) := by
  have hlen : dataLength config = 7 + config.ServerUsername.length
      + config.ServerPassword.length + config.TargetHostOrIp.length := by
    unfold dataLength; dsimp only; omega
  have hlay : (requestLayout config).length = dataLength config := by
    simp [requestLayout, PutUint16, hlen]; omega
  unfold connectData
  dsimp only
  rw [make_eq_filled]
  rw [store_filled _ [] 0 VER01 rfl (by simp [hlen])]
  simp only [Option.some_bind]
  rw [store_filled _ _ 1 _ (by simp) (by simp [hlen]; omega)]
  simp only [Option.some_bind]
  rw [rangeStore_filled _ _ _ 2 (by simp) (by simp [hlen]; omega)]
  simp only [Option.some_bind]
  rw [store_filled _ _ _ _ (by simp; omega) (by simp [hlen]; omega)]
  simp only [Option.some_bind]
  rw [rangeStore_filled _ _ _ _ (by simp; omega) (by simp [hlen]; omega)]
  simp only [Option.some_bind]
  rw [rangeStore_filled _ _ _ _ (by simp; omega) (by simp [hlen, PutUint16]; omega)]
  simp only [Option.some_bind]
  rw [store_filled _ _ _ _ (by simp [PutUint16]; omega)
    (by simp [hlen, PutUint16]; omega)]
  simp only [Option.some_bind]
  rw [store_filled _ _ _ _ (by simp [PutUint16]; omega)
    (by simp [hlen, PutUint16]; omega)]
  simp only [Option.some_bind]
  rw [rangeStore_filled _ _ _ _ (by simp [PutUint16]; omega)
    (by simp [hlen, PutUint16]; omega)]
  have hl2 : ([] ++ [VER01] ++ [byte config.ServerUsername.length] ++ config.ServerUsername
      ++ [byte config.ServerPassword.length] ++ config.ServerPassword
      ++ PutUint16 (uint16 config.TargetPort) ++ [config.TargetType]
      ++ [byte config.TargetHostOrIp.length] ++ config.TargetHostOrIp) = requestLayout config := by
    simp [requestLayout]
  rw [hl2]
  simp [filled, hlay]
  simp [PutUint16, hlen]
  omega


theorem requestLayout_length (config : Config) :
    (requestLayout config).length = dataLength config := by
  simp [requestLayout, PutUint16, dataLength]
  omega

theorem dataLength_eq (config : Config) :
    dataLength config = 7 + config.ServerUsername.length + config.ServerPassword.length
      + config.TargetHostOrIp.length := by
  unfold dataLength; dsimp only; omega

theorem byte_val_of_le (n : Nat) (h : n ≤ 255) : (byte n).val = n := by
  simp only [byte]
  omega

theorem uint16_of_range (p : Int) (h0 : 0 ≤ p) (h1 : p ≤ 65535) : uint16 p = p.toNat := by
  simp only [uint16]
  omega

@[simp] theorem writes_append (xs ys : List Event) : writes (xs ++ ys) = writes xs ++ writes ys := by
  induction xs with
  | nil => simp [writes]
  | cons e es ih => cases e <;> simp [writes, ih]

@[simp] theorem reads_append (xs ys : List Event) : reads (xs ++ ys) = reads xs ++ reads ys := by
  induction xs with
  | nil => simp [reads]
  | cons e es ih => cases e <;> simp [reads, ih]

/-! ## The handshake, step by step -/

/-- What `sendConnectData` does, for every configuration and transport: one `Write` of
the request layout, then `Close` and an error unless the write was complete. -/
theorem sendConnectData_eq {σ : Type} (t : Transport σ) (c : Client σ) :
    sendConnectData t c =
      some (if (t.Write c.serverConn.state (requestLayout c.config)).1.1
              ≠ (dataLength c.config : Int)
            ∨ (t.Write c.serverConn.state (requestLayout c.config)).1.2 ≠ none then
          (some "写入数据失败",
            ⟨⟨t.Close (t.Write c.serverConn.state (requestLayout c.config)).2,
              c.serverConn.trace ++ [Event.write (requestLayout c.config), Event.close]⟩,
              c.config⟩)
        else
          (none,
            ⟨⟨(t.Write c.serverConn.state (requestLayout c.config)).2,
              c.serverConn.trace ++ [Event.write (requestLayout c.config)]⟩, c.config⟩)) := by
  unfold sendConnectData
  rw [connectData_eq]
  simp only [Option.some_bind, Conn.Write, Conn.Close]
  split <;> simp

theorem sendConnectData_ok {σ : Type} (t : Transport σ) (c : Client σ) (s1 : σ)
    (hw : t.Write c.serverConn.state (requestLayout c.config)
      = ((((requestLayout c.config).length : Int), none), s1)) :
    sendConnectData t c = some (none,
      ⟨⟨s1, c.serverConn.trace ++ [Event.write (requestLayout c.config)]⟩, c.config⟩) := by
  rw [sendConnectData_eq, hw]
  simp [requestLayout_length]

theorem sendConnectData_fail {σ : Type} (t : Transport σ) (c : Client σ) (n : Int) (e : Err)
    (s1 : σ)
    (hw : t.Write c.serverConn.state (requestLayout c.config) = ((n, e), s1))
    (hbad : n ≠ ((requestLayout c.config).length : Int) ∨ e ≠ none) :
    sendConnectData t c = some (some "写入数据失败",
      ⟨⟨t.Close s1, c.serverConn.trace ++ [Event.write (requestLayout c.config), Event.close]⟩,
        c.config⟩) := by
  rw [sendConnectData_eq, hw]
  rw [requestLayout_length] at hbad
  simp only [if_pos hbad]

/-- On the transport `stream` every frame is written in full. -/
theorem sendConnectData_stream (c : Client (List (List Byte))) :
    sendConnectData stream c = some (none,
      ⟨⟨c.serverConn.state, c.serverConn.trace ++ [Event.write (requestLayout c.config)]⟩,
        c.config⟩) :=
  sendConnectData_ok stream c c.serverConn.state rfl

/-- The result of `receiveOk` when the four reads deliver a well-framed response. -/
theorem receiveOk_ok {σ : Type} (t : Transport σ) (c : Client σ) (s2 s3 s4 s5 : σ)
    (L : Byte) (msg : List Byte)
    (hver : t.Read c.serverConn.state 1 = (([VER01], none), s2))
    (hcode : t.Read s2 1 = (([0x00], none), s3))
    (hlen : t.Read s3 1 = (([L], none), s4))
    (hmsg : t.Read s4 L.val = ((msg, none), s5))
    (hL : msg.length = L.val) :
    receiveOk t c = (none,
      ⟨⟨s5, c.serverConn.trace ++ [Event.read 1, Event.read 1, Event.read 1, Event.read L.val]⟩,
        c.config⟩) := by
  simp [receiveOk, Conn.Read, Conn.Close, hver, hcode, hlen, hmsg, hL]

theorem receiveOk_version {σ : Type} (t : Transport σ) (c : Client σ) (s2 : σ) (b : Byte)
    (hver : t.Read c.serverConn.state 1 = (([b], none), s2)) (hb : b ≠ VER01) :
    receiveOk t c = (some "不支持的协议版本",
      ⟨⟨s2, c.serverConn.trace ++ [Event.read 1]⟩, c.config⟩) := by
  simp [receiveOk, Conn.Read, Conn.Close, hver, Ne.symm hb]

theorem receiveOk_status {σ : Type} (t : Transport σ) (c : Client σ) (s2 s3 : σ) (b : Byte)
    (hver : t.Read c.serverConn.state 1 = (([VER01], none), s2))
    (hcode : t.Read s2 1 = (([b], none), s3)) (hb : b ≠ 0x00) :
    receiveOk t c = (some "未识别的响应码",
      ⟨⟨s3, c.serverConn.trace ++ [Event.read 1, Event.read 1]⟩, c.config⟩) := by
  simp [receiveOk, Conn.Read, Conn.Close, hver, hcode, Ne.symm hb]

/-! ## Reads on the stream transport -/

/-- A one-byte `Read` takes the first byte of the stream, wherever the deliveries are
cut, and leaves the delivery that holds `tail` in one piece. -/
theorem streamRead_one (tail : List Byte) (ds2 : List (List Byte)) :
    ∀ (ds1 : List (List Byte)) (c1 : List Byte) (b : Byte) (rest : List Byte),
      ds1.flatten ++ c1 = b :: rest →
      ∃ ds1' c1', streamRead (ds1 ++ (c1 ++ tail) :: ds2) 1
          = (([b], none), ds1' ++ (c1' ++ tail) :: ds2) ∧ ds1'.flatten ++ c1' = rest := by
  intro ds1
  induction ds1 with
  | nil =>
    intro c1 b rest h
    simp only [List.flatten_nil, List.nil_append] at h
    subst h
    exact ⟨[], rest, by simp [streamRead], by simp⟩
  | cons d ds1 ih =>
    intro c1 b rest h
    cases d with
    | nil =>
      simp only [List.flatten_cons, List.nil_append] at h
      obtain ⟨ds1', c1', h1, h2⟩ := ih c1 b rest h
      exact ⟨ds1', c1', by simpa [streamRead] using h1, h2⟩
    | cons x xs =>
      simp only [List.flatten_cons, List.cons_append, List.cons.injEq] at h
      obtain ⟨hx, hr⟩ := h
      subst hx
      exact ⟨xs :: ds1, c1, by simp [streamRead], by simpa using hr⟩

/-- Once the header is consumed, a `Read` for the whole message returns it when it lies
in one delivery. -/
theorem streamRead_message (msg : List Byte) (ds2 : List (List Byte)) :
    ∀ (ds1 : List (List Byte)) (c1 : List Byte), ds1.flatten ++ c1 = [] →
      (streamRead (ds1 ++ (c1 ++ msg) :: ds2) msg.length).1 = (msg, none) := by
  intro ds1
  induction ds1 with
  | nil =>
    intro c1 h
    simp only [List.flatten_nil, List.nil_append] at h
    subst h
    cases msg with
    | nil => simp [streamRead]
    | cons m ms => simp [streamRead]
  | cons d ds1 ih =>
    intro c1 h
    cases d with
    | nil =>
      simp only [List.flatten_cons, List.nil_append] at h
      have hs := ih c1 h
      cases msg with
      | nil => simp [streamRead]
      | cons m ms => simpa [streamRead] using hs
    | cons x xs => simp at h

/-- The verdict of `receiveOk` on the stream transport when the message lies in one
delivery: it depends on the three header bytes only. -/
theorem receiveOk_stream_unsplit (config : Config) (tr : List Event)
    (ds1 ds2 : List (List Byte)) (c1 msg : List Byte) (v st L : Byte)
    (hhead : ds1.flatten ++ c1 = [v, st, L]) (hL : msg.length = L.val) :
    ((receiveOk stream ⟨⟨ds1 ++ (c1 ++ msg) :: ds2, tr⟩, config⟩).1,
      (receiveOk stream ⟨⟨ds1 ++ (c1 ++ msg) :: ds2, tr⟩, config⟩).2.serverConn.trace)
    = if v ≠ VER01 then (some "不支持的协议版本", tr ++ [Event.read 1])
      else if st ≠ 0x00 then (some "未识别的响应码", tr ++ [Event.read 1, Event.read 1])
      else (none, tr ++ [Event.read 1, Event.read 1, Event.read 1, Event.read L.val]) := by
  obtain ⟨dsa, ca, ha, hra⟩ := streamRead_one msg ds2 ds1 c1 v [st, L] hhead
  obtain ⟨dsb, cb, hb, hrb⟩ := streamRead_one msg ds2 dsa ca st [L] hra
  obtain ⟨dsc, cc, hc, hrc⟩ := streamRead_one msg ds2 dsb cb L [] hrb
  have hd := streamRead_message msg ds2 dsc cc hrc
  rw [hL] at hd
  by_cases hv : v = VER01
  · by_cases hs : st = 0x00
    · subst hv hs
      rw [receiveOk_ok stream ⟨⟨ds1 ++ (c1 ++ msg) :: ds2, tr⟩, config⟩
        (dsa ++ (ca ++ msg) :: ds2) (dsb ++ (cb ++ msg) :: ds2) (dsc ++ (cc ++ msg) :: ds2)
        (streamRead (dsc ++ (cc ++ msg) :: ds2) L.val).2 L msg
        ha hb hc (Prod.ext hd rfl) hL]
      simp
    · subst hv
      rw [receiveOk_status stream ⟨⟨ds1 ++ (c1 ++ msg) :: ds2, tr⟩, config⟩
        (dsa ++ (ca ++ msg) :: ds2) (dsb ++ (cb ++ msg) :: ds2) st ha hb hs]
      simp [hs]
  · rw [receiveOk_version stream ⟨⟨ds1 ++ (c1 ++ msg) :: ds2, tr⟩, config⟩
      (dsa ++ (ca ++ msg) :: ds2) v ha hv]
    simp [hv]

/-! ## Decoding the request layout -/

theorem takeField_append (xs ys : List Byte) : takeField xs.length (xs ++ ys) = some (xs, ys) := by
  simp [takeField]

theorem PutUint16_decode (v : Nat) (h : v < 65536) :
    (byte (v / 2 ^ 8)).val * 256 + (byte v).val = v := by
  simp only [byte]
  omega

/-- The decoder of the layout inverts the layout on valid configurations. -/
theorem decode_requestLayout (config : Config) (h : config.valid) :
    decodeConnectRequest (requestLayout config) = some config.request := by
  obtain ⟨hu, hp, hh, h0, h1⟩ := h
  have hport : config.TargetPort.toNat < 65536 := by omega
  have hlay : requestLayout config = VER01 :: byte config.ServerUsername.length ::
      (config.ServerUsername ++ byte config.ServerPassword.length ::
        (config.ServerPassword ++ byte (config.TargetPort.toNat / 2 ^ 8) ::
          byte config.TargetPort.toNat :: config.TargetType ::
          byte config.TargetHostOrIp.length :: (config.TargetHostOrIp ++ []))) := by
    simp [requestLayout, PutUint16, uint16_of_range _ h0 h1]
  rw [hlay, decodeConnectRequest, byte_val_of_le _ hu, takeField_append]
  simp only [Option.some_bind, byte_val_of_le _ hp, takeField_append, byte_val_of_le _ hh,
    if_true, PutUint16_decode _ hport, Config.request]

/-! ## The drivers `connect` and `NewClient` -/

/-- The method `connect` returns what `sendConnectData` returned when that is an error,
and otherwise what `receiveOk` returns on the connection after the write. -/
theorem connect_eq {σ : Type} (t : Transport σ) (c : Client σ) :
    connect t c =
      some (if (t.Write c.serverConn.state (requestLayout c.config)).1.1
              ≠ ((requestLayout c.config).length : Int)
            ∨ (t.Write c.serverConn.state (requestLayout c.config)).1.2 ≠ none then
          (some "写入数据失败",
            ⟨⟨t.Close (t.Write c.serverConn.state (requestLayout c.config)).2,
              c.serverConn.trace ++ [Event.write (requestLayout c.config), Event.close]⟩,
              c.config⟩)
        else
          receiveOk t
            ⟨⟨(t.Write c.serverConn.state (requestLayout c.config)).2,
              c.serverConn.trace ++ [Event.write (requestLayout c.config)]⟩, c.config⟩) := by
  unfold connect
  rw [sendConnectData_eq, requestLayout_length]
  simp only [Option.some_bind]
  split
  · simp
  · simp only [ne_eq, not_true_eq_false, if_false]
    split
    · rfl
    · rename_i h
      simp only [not_not] at h
      rw [← h]

/-- The method `receiveOk` returns a nil error exactly when the four reads deliver a
well-framed response with version `VER01` and status `0x00`. -/
theorem receiveOk_none_iff {σ : Type} (t : Transport σ) (c : Client σ) :
    (receiveOk t c).1 = none ↔
      (((t.Read c.serverConn.state 1).1.1 = [VER01] ∧ (t.Read c.serverConn.state 1).1.2 = none) ∧
      ((t.Read (t.Read c.serverConn.state 1).2 1).1.1 = [0x00]
        ∧ (t.Read (t.Read c.serverConn.state 1).2 1).1.2 = none) ∧
      ((t.Read (t.Read (t.Read c.serverConn.state 1).2 1).2 1).1.1.length = 1
        ∧ (t.Read (t.Read (t.Read c.serverConn.state 1).2 1).2 1).1.2 = none) ∧
      ((t.Read (t.Read (t.Read (t.Read c.serverConn.state 1).2 1).2 1).2
          ((t.Read (t.Read (t.Read c.serverConn.state 1).2 1).2 1).1.1.headD 0).val).1.1.length
          = ((t.Read (t.Read (t.Read c.serverConn.state 1).2 1).2 1).1.1.headD 0).val
        ∧ (t.Read (t.Read (t.Read (t.Read c.serverConn.state 1).2 1).2 1).2
          ((t.Read (t.Read (t.Read c.serverConn.state 1).2 1).2 1).1.1.headD 0).val).1.2
          = none)) := by
  have hnat : ∀ a b : Nat, ((a : Int) ≠ (b : Int)) ↔ a ≠ b := by
    intro a b; omega
  have hone : ∀ a : Nat, ((a : Int) ≠ 1) ↔ a ≠ 1 := by
    intro a; omega
  simp only [receiveOk, Conn.Read, Conn.Close, hnat, hone]
  generalize t.Read c.serverConn.state 1 = r1
  obtain ⟨⟨d1, e1⟩, s1⟩ := r1
  generalize t.Read s1 1 = r2
  obtain ⟨⟨d2, e2⟩, s2⟩ := r2
  generalize t.Read s2 1 = r3
  obtain ⟨⟨d3, e3⟩, s3⟩ := r3
  generalize t.Read s3 (d3.headD 0).val = r4
  obtain ⟨⟨d4, e4⟩, s4⟩ := r4
  rcases d1 with _ | ⟨x1, _ | ⟨y1, z1⟩⟩ <;> rcases e1 with _ | e1 <;> simp
  by_cases hx1 : VER01 = x1
  · subst hx1
    rcases d2 with _ | ⟨x2, _ | ⟨y2, z2⟩⟩ <;> rcases e2 with _ | e2 <;> simp
    by_cases hx2 : (0 : Byte) = x2
    · subst hx2
      rcases d3 with _ | ⟨x3, _ | ⟨y3, z3⟩⟩ <;> rcases e3 with _ | e3 <;> simp
      by_cases hlen : d4.length = x3.val <;> rcases e4 with _ | e4 <;> simp [hlen]
    · simp [hx2, Ne.symm hx2]
  · simp [hx1, Ne.symm hx1]

/-- The seven ways in which `receiveOk` ends, each with the error returned and the calls
made on the connection. -/
theorem receiveOk_shape {σ : Type} (t : Transport σ) (c : Client σ) :
    ((receiveOk t c).1 = some "读取应答版本号失败" ∧
      (receiveOk t c).2.serverConn.trace
        = c.serverConn.trace ++ [Event.read 1, Event.close]) ∨
    ((receiveOk t c).1 = some "不支持的协议版本" ∧
      (receiveOk t c).2.serverConn.trace = c.serverConn.trace ++ [Event.read 1]) ∨
    ((receiveOk t c).1 = some "读取响应码失败" ∧
      (receiveOk t c).2.serverConn.trace
        = c.serverConn.trace ++ [Event.read 1, Event.read 1, Event.close]) ∨
    ((receiveOk t c).1 = some "未识别的响应码" ∧
      (receiveOk t c).2.serverConn.trace
        = c.serverConn.trace ++ [Event.read 1, Event.read 1]) ∨
    ((receiveOk t c).1 = some "读取消息长度失败" ∧
      (receiveOk t c).2.serverConn.trace
        = c.serverConn.trace ++ [Event.read 1, Event.read 1, Event.read 1, Event.close]) ∨
    (∃ L : Nat, (receiveOk t c).1 = some "读取消息失败" ∧
      (receiveOk t c).2.serverConn.trace
        = c.serverConn.trace
          ++ [Event.read 1, Event.read 1, Event.read 1, Event.read L, Event.close]) ∨
    (∃ L : Nat, (receiveOk t c).1 = none ∧
      (receiveOk t c).2.serverConn.trace
        = c.serverConn.trace ++ [Event.read 1, Event.read 1, Event.read 1, Event.read L]) := by
  have hnat : ∀ a b : Nat, ((a : Int) ≠ (b : Int)) ↔ a ≠ b := by
    intro a b; omega
  have hone : ∀ a : Nat, ((a : Int) ≠ 1) ↔ a ≠ 1 := by
    intro a; omega
  simp only [receiveOk, Conn.Read, Conn.Close, hnat, hone]
  generalize t.Read c.serverConn.state 1 = r1
  obtain ⟨⟨d1, e1⟩, s1⟩ := r1
  generalize t.Read s1 1 = r2
  obtain ⟨⟨d2, e2⟩, s2⟩ := r2
  generalize t.Read s2 1 = r3
  obtain ⟨⟨d3, e3⟩, s3⟩ := r3
  generalize t.Read s3 (d3.headD 0).val = r4
  obtain ⟨⟨d4, e4⟩, s4⟩ := r4
  dsimp only
  by_cases h1 : d1.length ≠ 1 ∨ e1 ≠ none
  · rw [if_pos h1]; simp
  · rw [if_neg h1]
    by_cases v1 : VER01 ≠ d1.headD 0
    · rw [if_pos v1]; simp
    · rw [if_neg v1]
      by_cases h2 : d2.length ≠ 1 ∨ e2 ≠ none
      · rw [if_pos h2]; simp
      · rw [if_neg h2]
        by_cases v2 : (0x00 : Byte) ≠ d2.headD 0
        · rw [if_pos v2]; simp
        · rw [if_neg v2]
          by_cases h3 : d3.length ≠ 1 ∨ e3 ≠ none
          · rw [if_pos h3]; simp
          · rw [if_neg h3]
            by_cases h4 : d4.length ≠ (d3.headD 0).val ∨ e4 ≠ none
            · rw [if_pos h4]; simp
            · rw [if_neg h4]; simp

/-- Every run of `connect` returns, and its calls on the connection are the `Write` of
the request followed by `Close` (write failure) or by the calls of `receiveOk`. -/
theorem connect_shape {σ : Type} (t : Transport σ) (c : Client σ) :
    ∃ r evs, connect t c = some r ∧
      r.2.serverConn.trace
        = c.serverConn.trace ++ Event.write (requestLayout c.config) :: evs ∧
      (((t.Write c.serverConn.state (requestLayout c.config)).1
            ≠ (((requestLayout c.config).length : Int), none) ∧
          r.1 = some "写入数据失败" ∧ evs = [Event.close]) ∨
        ((t.Write c.serverConn.state (requestLayout c.config)).1
            = (((requestLayout c.config).length : Int), none) ∧
          ((r.1 = some "读取应答版本号失败" ∧ evs = [Event.read 1, Event.close]) ∨
            (r.1 = some "不支持的协议版本" ∧ evs = [Event.read 1]) ∨
            (r.1 = some "读取响应码失败" ∧ evs = [Event.read 1, Event.read 1, Event.close]) ∨
            (r.1 = some "未识别的响应码" ∧ evs = [Event.read 1, Event.read 1]) ∨
            (r.1 = some "读取消息长度失败" ∧
              evs = [Event.read 1, Event.read 1, Event.read 1, Event.close]) ∨
            (∃ L : Nat, r.1 = some "读取消息失败" ∧
              evs = [Event.read 1, Event.read 1, Event.read 1, Event.read L, Event.close]) ∨
            (∃ L : Nat, r.1 = none ∧
              evs = [Event.read 1, Event.read 1, Event.read 1, Event.read L])))) := by
  by_cases hw : (t.Write c.serverConn.state (requestLayout c.config)).1.1
        ≠ ((requestLayout c.config).length : Int)
      ∨ (t.Write c.serverConn.state (requestLayout c.config)).1.2 ≠ none
  · refine ⟨_, [Event.close], by rw [connect_eq, if_pos hw], by simp, Or.inl ⟨?_, rfl, rfl⟩⟩
    intro heq
    rw [heq] at hw
    simp at hw
  · have hok : (t.Write c.serverConn.state (requestLayout c.config)).1
        = (((requestLayout c.config).length : Int), none) := by
      simp only [not_or, not_not] at hw
      exact Prod.ext hw.1 hw.2
    have hsh := receiveOk_shape t
      ⟨⟨(t.Write c.serverConn.state (requestLayout c.config)).2,
        c.serverConn.trace ++ [Event.write (requestLayout c.config)]⟩, c.config⟩
    simp only [List.append_assoc, List.singleton_append] at hsh
    rcases hsh with h | h | h | h | h | ⟨L, h⟩ | ⟨L, h⟩
    · exact ⟨_, _, by rw [connect_eq, if_neg hw], h.2, Or.inr ⟨hok, Or.inl ⟨h.1, rfl⟩⟩⟩
    · exact ⟨_, _, by rw [connect_eq, if_neg hw], h.2,
        Or.inr ⟨hok, Or.inr (Or.inl ⟨h.1, rfl⟩)⟩⟩
    · exact ⟨_, _, by rw [connect_eq, if_neg hw], h.2,
        Or.inr ⟨hok, Or.inr (Or.inr (Or.inl ⟨h.1, rfl⟩))⟩⟩
    · exact ⟨_, _, by rw [connect_eq, if_neg hw], h.2,
        Or.inr ⟨hok, Or.inr (Or.inr (Or.inr (Or.inl ⟨h.1, rfl⟩)))⟩⟩
    · exact ⟨_, _, by rw [connect_eq, if_neg hw], h.2,
        Or.inr ⟨hok, Or.inr (Or.inr (Or.inr (Or.inr (Or.inl ⟨h.1, rfl⟩))))⟩⟩
    · exact ⟨_, _, by rw [connect_eq, if_neg hw], h.2,
        Or.inr ⟨hok, Or.inr (Or.inr (Or.inr (Or.inr (Or.inr (Or.inl ⟨L, h.1, rfl⟩)))))⟩⟩
    · exact ⟨_, _, by rw [connect_eq, if_neg hw], h.2,
        Or.inr ⟨hok, Or.inr (Or.inr (Or.inr (Or.inr (Or.inr (Or.inr ⟨L, h.1, rfl⟩)))))⟩⟩

/-! ## Runs of `Bind` -/

theorem Bind.run_append (as bs : List BindAction) :
    ∀ s : BindState, Bind.run s (as ++ bs) = (Bind.run s as).bind fun s1 => Bind.run s1 bs := by
  induction as with
  | nil => intro s; simp [Bind.run]
  | cons a as ih =>
    intro s
    simp only [List.cons_append, Bind.run]
    cases Bind.step s a with
    | none => simp
    | some s1 => simp [ih s1]

/-- What holds in every state that a run of `Bind` reaches. -/
theorem Bind.run_invariant (sched : List BindAction) :
    ∀ s : BindState, Bind.run Bind.init sched = some s →
      (∀ e, s.caller = CallerPc.closing e → e = none) ∧
      (∀ e, s.caller = CallerPc.returned e → e = none) ∧
      (s.srcClosed = true ↔ ∃ e, s.caller = CallerPc.returned e) ∧
      (s.serverClosed = true ↔ s.task = TaskPc.done) ∧
      ((∃ e, s.caller = CallerPc.closing e ∨ s.caller = CallerPc.returned e) →
        ∃ n err, BindAction.callerCopyReturns n err ∈ sched) ∧
      ((s.task = TaskPc.closing ∨ s.task = TaskPc.done) →
        ∃ n err, BindAction.taskCopyReturns n err ∈ sched) ∧
      (s.caller = CallerPc.entry → s.task = TaskPc.idle) := by
  induction sched using List.reverseRecOn with
  | nil =>
    intro s h
    simp only [Bind.run, Option.some.injEq] at h
    subst h
    simp [Bind.init]
  | append_singleton as a ih =>
    intro s h
    rw [Bind.run_append] at h
    cases h0 : Bind.run Bind.init as with
    | none => simp [h0] at h
    | some s0 =>
      have inv := ih s0 h0
      simp only [h0, Option.some_bind, Bind.run] at h
      obtain ⟨c0, t0, sc0, vc0⟩ := s0
      cases hs : Bind.step ⟨c0, t0, sc0, vc0⟩ a with
      | none => simp [hs] at h
      | some s1 =>
        simp only [hs, Option.some_bind, Option.some.injEq] at h
        subst h
        obtain ⟨i1, i2, i3, i4, i5, i6, i7⟩ := inv
        have m5 : (∃ n err, BindAction.callerCopyReturns n err ∈ as) →
            ∃ n err, BindAction.callerCopyReturns n err ∈ as ++ [a] :=
          fun ⟨n, err, hm⟩ => ⟨n, err, List.mem_append_left _ hm⟩
        have m6 : (∃ n err, BindAction.taskCopyReturns n err ∈ as) →
            ∃ n err, BindAction.taskCopyReturns n err ∈ as ++ [a] :=
          fun ⟨n, err, hm⟩ => ⟨n, err, List.mem_append_left _ hm⟩
        clear ih h0
        cases a with
        | go =>
          cases c0 <;> simp [Bind.step] at hs
          subst hs
          have ht := i7 rfl
          simp only at ht
          subst ht
          refine ⟨by simp, by simp, ?_, ?_, by simp, by simp, by simp⟩
          · simpa using i3
          · simpa using i4
        | callerCopyReturns n err =>
          cases c0 <;> simp [Bind.step] at hs
          subst hs
          refine ⟨by simp, by simp, ?_, i4, ?_, fun h => m6 (i6 h), by simp⟩
          · simpa using i3
          · exact fun _ => ⟨n, err, by simp⟩
        | callerDefer =>
          cases c0 <;> simp [Bind.step] at hs
          subst hs
          rename_i ret
          have hret := i1 ret rfl
          subst hret
          refine ⟨by simp, by simp, by simp, i4, fun _ => m5 (i5 ⟨none, Or.inl rfl⟩),
            fun h => m6 (i6 h), by simp⟩
        | taskCopyReturns n err =>
          cases t0 <;> simp [Bind.step] at hs
          subst hs
          refine ⟨i1, i2, i3, ?_, fun h => m5 (i5 h), fun _ => ⟨n, err, by simp⟩, ?_⟩
          · simpa using i4
          · intro hc
            exact absurd (i7 hc) (by simp)
        | taskDefer =>
          cases t0 <;> simp [Bind.step] at hs
          subst hs
          refine ⟨i1, i2, i3, by simp, fun h => m5 (i5 h), fun _ => m6 (i6 (Or.inl rfl)), ?_⟩
          intro hc
          exact absurd (i7 hc) (by simp)

/-- A `Read` on the stream transport takes the bytes it returns off the front of the
stream and leaves the rest queued. -/
theorem streamRead_conserves :
    ∀ (ds : List (List Byte)) (k : Nat),
      (streamRead ds k).1.1 ++ (streamRead ds k).2.flatten = ds.flatten := by
  intro ds
  induction ds with
  | nil =>
    intro k
    cases k <;> simp [streamRead]
  | cons d ds ih =>
    intro k
    cases k with
    | zero => simp [streamRead]
    | succ k =>
      cases d with
      | nil => simpa [streamRead] using ih (k + 1)
      | cons b bs =>
        simp only [streamRead, List.flatten_cons]
        rw [← List.append_assoc, List.take_append_drop]

/-! ## Positions in the request layout -/

theorem getElem?_append_cons_at (xs ys : List Byte) (y : Byte) (n : Nat)
    (hn : n = xs.length) : (xs ++ y :: ys)[n]? = some y := by
  subst hn
  rw [List.getElem?_append_right (Nat.le_refl _)]
  simp

theorem drop_append_at (xs ys : List Byte) (n : Nat) (hn : n = xs.length) :
    (xs ++ ys).drop n = ys := by
  subst hn
  simp

theorem take_append_at (xs ys : List Byte) (n : Nat) (hn : n = xs.length) :
    (xs ++ ys).take n = xs := by
  subst hn
  simp

theorem takeField_length (n : Nat) (bs a rest : List Byte)
    (h : takeField n bs = some (a, rest)) : a.length ≤ n := by
  unfold takeField at h
  split at h
  · simp only [Option.some.injEq, Prod.mk.injEq] at h
    rw [← h.1]
    simp
  · simp at h

/-- A request decoded from the layout has fields of at most 255 bytes: a length byte
cannot announce more. -/
theorem decode_field_lengths (bs : List Byte) (req : ConnectRequest)
    (h : decodeConnectRequest bs = some req) :
    req.username.length ≤ 255 ∧ req.password.length ≤ 255 ∧ req.targetHost.length ≤ 255 := by
  rcases bs with _ | ⟨v, _ | ⟨ul, rest⟩⟩
  · simp [decodeConnectRequest] at h
  · simp [decodeConnectRequest] at h
  · simp only [decodeConnectRequest] at h
    cases hu : takeField ul.val rest with
    | none => simp [hu] at h
    | some ur =>
      obtain ⟨user, rest1⟩ := ur
      simp only [hu, Option.some_bind] at h
      rcases rest1 with _ | ⟨pl, rest2⟩
      · simp at h
      · simp only at h
        cases hp : takeField pl.val rest2 with
        | none => simp [hp] at h
        | some pr =>
          obtain ⟨pass, rest3⟩ := pr
          simp only [hp, Option.some_bind] at h
          rcases rest3 with _ | ⟨hi, _ | ⟨lo, _ | ⟨ty, _ | ⟨hl, rest4⟩⟩⟩⟩
          · simp at h
          · simp at h
          · simp at h
          · simp at h
          · simp only at h
            cases hh : takeField hl.val rest4 with
            | none => simp [hh] at h
            | some hr =>
              obtain ⟨host, rest5⟩ := hr
              simp only [hh, Option.some_bind] at h
              split at h
              · simp only [Option.some.injEq] at h
                subst h
                have a1 := takeField_length _ _ _ _ hu
                have a2 := takeField_length _ _ _ _ hp
                have a3 := takeField_length _ _ _ _ hh
                have b1 := ul.isLt
                have b2 := pl.isLt
                have b3 := hl.isLt
                simp only
                omega
              · simp at h

/-! ## The claims -/

/-- C1: for every configuration whose username, password and target host are at most 255
bytes long and whose target port is in `0..65535`, and for every transport,
`sendConnectData` passes exactly one byte sequence to `Write`, and its bytes are, as
numbers: `VER01`, the username length, the username, the password length, the password,
the port as two big-endian bytes, the target type, the host length, the host. -/
theorem c1_sendConnectData_writes_layout {σ : Type} (t : Transport σ) (c : Client σ)
    (h : c.config.valid) :
    ∃ r frame, sendConnectData t c = some r ∧
      writes r.2.serverConn.trace = writes c.serverConn.trace ++ [frame] ∧
      frame.map Fin.val =
        [VER01.val, c.config.ServerUsername.length] ++ c.config.ServerUsername.map Fin.val
          ++ [c.config.ServerPassword.length] ++ c.config.ServerPassword.map Fin.val
          ++ [c.config.TargetPort.toNat / 256, c.config.TargetPort.toNat % 256]
          ++ [c.config.TargetType.val, c.config.TargetHostOrIp.length]
          ++ c.config.TargetHostOrIp.map Fin.val := by
  obtain ⟨hu, hp, hh, h0, h1⟩ := h
  refine ⟨_, requestLayout c.config, sendConnectData_eq t c, ?_, ?_⟩
  · split <;> simp [writes]
  · have hport : c.config.TargetPort.toNat < 65536 := by omega
    simp only [requestLayout, PutUint16, uint16_of_range _ h0 h1, List.map_append,
      List.map_cons, List.map_nil, byte_val_of_le _ hu, byte_val_of_le _ hp,
      byte_val_of_le _ hh]
    have e1 : (byte (c.config.TargetPort.toNat / 2 ^ 8)).val
        = c.config.TargetPort.toNat / 256 := by
      simp only [byte]; omega
    have e2 : (byte c.config.TargetPort.toNat).val = c.config.TargetPort.toNat % 256 := by
      simp only [byte]; norm_num
    rw [e1, e2]

/-- The end-to-end scenario: `bob`, `pw`, `example.com`, port 80, type 1 gives 23 bytes. -/
theorem c1_sendConnectData_writes_layout_witness :
    bobConfig.valid ∧
    ∃ r frame, sendConnectData stream ⟨⟨[], []⟩, bobConfig⟩ = some r ∧
      writes r.2.serverConn.trace = [] ++ [frame] ∧
      frame.map Fin.val =
        [0x01, 0x03, 0x62, 0x6f, 0x62, 0x02, 0x70, 0x77, 0x00, 0x50, 0x01, 0x0B,
          0x65, 0x78, 0x61, 0x6d, 0x70, 0x6c, 0x65, 0x2e, 0x63, 0x6f, 0x6d] :=
  ⟨by decide, c1_sendConnectData_writes_layout stream ⟨⟨[], []⟩, bobConfig⟩ (by decide)⟩

/-- C2: after a complete request write, when the successive reads return without error
one byte `VER01`, one byte `0x00`, one length byte `L` and then exactly `L` message
bytes (`L = 0` included), `connect` returns no error, the connection has not been
closed (its trace is the write followed by four reads), and `NewClient` returns the
handle with a nil error. -/
theorem c2_handshake_accepts {σ : Type} (dial : List Byte → Int → Except String σ)
    (t : Transport σ) (config : Config) (s0 s1 s2 s3 s4 s5 : σ) (L : Byte) (msg : List Byte)
    (hdial : dial config.ServerHostname config.ServerPort = Except.ok s0)
    (hwrite : t.Write s0 (requestLayout config)
      = ((((requestLayout config).length : Int), none), s1))
    (hver : t.Read s1 1 = (([VER01], none), s2))
    (hcode : t.Read s2 1 = (([0x00], none), s3))
    (hlen : t.Read s3 1 = (([L], none), s4))
    (hmsg : t.Read s4 L.val = ((msg, none), s5))
    (hL : msg.length = L.val) :
    ∃ tr, connect t ⟨⟨s0, []⟩, config⟩ = some (none, ⟨⟨s5, tr⟩, config⟩) ∧
      tr = [Event.write (requestLayout config), Event.read 1, Event.read 1, Event.read 1,
        Event.read L.val] ∧
      Event.close ∉ tr ∧
      NewClient dial t config = some (some ⟨⟨s5, tr⟩, config⟩, none) := by
  have hsend := sendConnectData_ok t ⟨⟨s0, []⟩, config⟩ s1 hwrite
  have hrecv := receiveOk_ok t
    ⟨⟨s1, [Event.write (requestLayout config)]⟩, config⟩ s2 s3 s4 s5 L msg
    hver hcode hlen hmsg hL
  simp only [List.nil_append, List.singleton_append, List.cons_append] at hsend hrecv
  have hconn : connect t ⟨⟨s0, []⟩, config⟩ = some (none, ⟨⟨s5,
      [Event.write (requestLayout config), Event.read 1, Event.read 1, Event.read 1,
        Event.read L.val]⟩, config⟩) := by
    simp only [connect, hsend, Option.some_bind]
    simp [hrecv]
  refine ⟨_, hconn, rfl, by simp, ?_⟩
  simp [NewClient, hdial, hconn]

/-- The mock endpoint replying `0x01 0x00 0x00` to the end-to-end scenario. -/
theorem c2_handshake_accepts_witness :
    ∃ tr, connect stream ⟨⟨[[0x01, 0x00, 0x00]], []⟩, bobConfig⟩
        = some (none, ⟨⟨[[]], tr⟩, bobConfig⟩) ∧
      tr = [Event.write (requestLayout bobConfig), Event.read 1, Event.read 1, Event.read 1,
        Event.read 0] ∧
      Event.close ∉ tr ∧
      NewClient (dialStream [[0x01, 0x00, 0x00]]) stream bobConfig
        = some (some ⟨⟨[[]], tr⟩, bobConfig⟩, none) :=
  c2_handshake_accepts (dialStream [[0x01, 0x00, 0x00]]) stream bobConfig
    [[0x01, 0x00, 0x00]] [[0x01, 0x00, 0x00]] [[0x00, 0x00]] [[0x00]] [[]] [[]] 0 []
    rfl rfl rfl rfl rfl rfl rfl

/-- C3, as stated, fails: with a 256-byte username `sendConnectData` returns no error and
has written a frame of 263 bytes whose username-length byte is `0`. -/
theorem c3_oversized_username_is_written :
    255 < longUserConfig.ServerUsername.length ∧
    ∃ r frame, sendConnectData stream longUserClient = some r ∧ r.1 = none ∧
      writes r.2.serverConn.trace = [frame] ∧ frame.length = 263 ∧ frame[1]? = some 0 := by
  refine ⟨?_, _, requestLayout longUserConfig, sendConnectData_stream _, rfl, ?_, ?_, ?_⟩
  · simp only [longUserConfig, List.length_replicate]
    decide
  · simp only [longUserClient, List.nil_append, writes]
  · rw [requestLayout_length, dataLength_eq]
    simp only [longUserConfig, List.length_replicate, List.length_nil]
  · simp only [requestLayout, longUserConfig, List.length_replicate, List.cons_append,
      List.getElem?_cons_succ, List.getElem?_cons_zero]
    rfl

/-- C3, amended: a configuration with an oversized username, password or host is not
rejected.  `sendConnectData` performs exactly one `Write`; the frame holds every field in
full (`7 + len(username) + len(password) + len(host)` bytes), each length byte being the
length modulo 256; and an error is returned exactly when that `Write` does not report
the full frame length with a nil error. -/
theorem c3_oversized_fields_are_sent {σ : Type} (t : Transport σ) (c : Client σ)
    (hbig : 255 < c.config.ServerUsername.length ∨ 255 < c.config.ServerPassword.length
      ∨ 255 < c.config.TargetHostOrIp.length) :
    ∃ r frame, sendConnectData t c = some r ∧
      writes r.2.serverConn.trace = writes c.serverConn.trace ++ [frame] ∧
      frame = [VER01, byte c.config.ServerUsername.length] ++ c.config.ServerUsername
        ++ [byte c.config.ServerPassword.length] ++ c.config.ServerPassword
        ++ PutUint16 (uint16 c.config.TargetPort)
        ++ [c.config.TargetType, byte c.config.TargetHostOrIp.length]
        ++ c.config.TargetHostOrIp ∧
      frame.length = 7 + c.config.ServerUsername.length + c.config.ServerPassword.length
        + c.config.TargetHostOrIp.length ∧
      (byte c.config.ServerUsername.length).val = c.config.ServerUsername.length % 256 ∧
      (byte c.config.ServerPassword.length).val = c.config.ServerPassword.length % 256 ∧
      (byte c.config.TargetHostOrIp.length).val = c.config.TargetHostOrIp.length % 256 ∧
      (r.1 = none ↔
        (t.Write c.serverConn.state frame).1 = ((frame.length : Int), none)) := by
  have _ := hbig
  refine ⟨_, requestLayout c.config, sendConnectData_eq t c, ?_, rfl, ?_, ?_, ?_, ?_, ?_⟩
  · split <;> simp [writes]
  · rw [requestLayout_length, dataLength_eq]
  · simp [byte]
  · simp [byte]
  · simp [byte]
  · rw [requestLayout_length]
    split
    · rename_i hw
      simp only [reduceCtorEq, false_iff]
      intro heq
      rw [heq] at hw
      simp at hw
    · rename_i hw
      simp only [true_iff]
      simp only [not_or, not_not] at hw
      exact Prod.ext hw.1 hw.2

/-- The 256-byte username on a transport that accepts every frame. -/
theorem c3_oversized_fields_are_sent_witness :
    ∃ r frame, sendConnectData stream longUserClient = some r ∧
      writes r.2.serverConn.trace = writes longUserClient.serverConn.trace ++ [frame] ∧
      frame = [VER01, byte longUserClient.config.ServerUsername.length]
        ++ longUserClient.config.ServerUsername
        ++ [byte longUserClient.config.ServerPassword.length]
        ++ longUserClient.config.ServerPassword
        ++ PutUint16 (uint16 longUserClient.config.TargetPort)
        ++ [longUserClient.config.TargetType, byte longUserClient.config.TargetHostOrIp.length]
        ++ longUserClient.config.TargetHostOrIp ∧
      frame.length = 7 + longUserClient.config.ServerUsername.length
        + longUserClient.config.ServerPassword.length
        + longUserClient.config.TargetHostOrIp.length ∧
      (byte longUserClient.config.ServerUsername.length).val
        = longUserClient.config.ServerUsername.length % 256 ∧
      (byte longUserClient.config.ServerPassword.length).val
        = longUserClient.config.ServerPassword.length % 256 ∧
      (byte longUserClient.config.TargetHostOrIp.length).val
        = longUserClient.config.TargetHostOrIp.length % 256 ∧
      (r.1 = none ↔
        (stream.Write longUserClient.serverConn.state frame).1
          = ((frame.length : Int), none)) :=
  c3_oversized_fields_are_sent stream longUserClient
    (Or.inl (by simp only [longUserClient, longUserConfig, List.length_replicate]; decide))

/-- C4: when the first byte of the response is read successfully and differs from
`VER01`, `receiveOk` returns an error and has made exactly one `Read` call, and nothing
else, on the connection. -/
theorem c4_version_gate {σ : Type} (t : Transport σ) (c : Client σ) (s2 : σ) (b : Byte)
    (hver : t.Read c.serverConn.state 1 = (([b], none), s2)) (hb : b ≠ VER01) :
    (receiveOk t c).1 ≠ none ∧
      (receiveOk t c).2.serverConn.trace = c.serverConn.trace ++ [Event.read 1] ∧
      reads (receiveOk t c).2.serverConn.trace = reads c.serverConn.trace ++ [1] := by
  rw [receiveOk_version t c s2 b hver hb]
  simp [reads]

/-- A response that starts with the byte `0x02`. -/
theorem c4_version_gate_witness :
    (receiveOk stream ⟨⟨[[0x02, 0x00, 0x00]], []⟩, bobConfig⟩).1 ≠ none ∧
      (receiveOk stream ⟨⟨[[0x02, 0x00, 0x00]], []⟩, bobConfig⟩).2.serverConn.trace
        = [] ++ [Event.read 1] ∧
      reads (receiveOk stream ⟨⟨[[0x02, 0x00, 0x00]], []⟩, bobConfig⟩).2.serverConn.trace
        = reads [] ++ [1] :=
  c4_version_gate stream ⟨⟨[[0x02, 0x00, 0x00]], []⟩, bobConfig⟩ [[0x00, 0x00]] 0x02
    rfl (by decide)

/-- C5: when the response has version byte `VER01` and a status byte other than `0x00`,
`receiveOk` returns an error after exactly two `Read` calls (the message length and the
message are not read), `connect` returns an error, and `NewClient` returns a nil handle
with that error.  The outcome of the preceding `Write` is arbitrary. -/
theorem c5_status_gate {σ : Type} (dial : List Byte → Int → Except String σ)
    (t : Transport σ) (config : Config) (s0 s1 s2 s3 : σ) (w : Int × Err) (b : Byte)
    (hdial : dial config.ServerHostname config.ServerPort = Except.ok s0)
    (hwrite : t.Write s0 (requestLayout config) = (w, s1))
    (hver : t.Read s1 1 = (([VER01], none), s2))
    (hcode : t.Read s2 1 = (([b], none), s3)) (hb : b ≠ 0x00) :
    (∀ c : Client σ, c.serverConn.state = s1 →
      (receiveOk t c).1 ≠ none ∧
      (receiveOk t c).2.serverConn.trace
        = c.serverConn.trace ++ [Event.read 1, Event.read 1]) ∧
    (∃ e c1, connect t ⟨⟨s0, []⟩, config⟩ = some (some e, c1)) ∧
    (∃ e, NewClient dial t config = some (none, some e)) := by
  have hrecv : ∀ c : Client σ, c.serverConn.state = s1 →
      receiveOk t c = (some "未识别的响应码",
        ⟨⟨s3, c.serverConn.trace ++ [Event.read 1, Event.read 1]⟩, c.config⟩) := by
    intro c hc
    exact receiveOk_status t c s2 s3 b (hc ▸ hver) hcode hb
  have hconn : ∃ e c1, connect t ⟨⟨s0, []⟩, config⟩ = some (some e, c1) := by
    by_cases hw : w.1 ≠ ((requestLayout config).length : Int) ∨ w.2 ≠ none
    · have hs := sendConnectData_fail t ⟨⟨s0, []⟩, config⟩ w.1 w.2 s1 hwrite hw
      exact ⟨_, _, by rw [connect, hs]; rfl⟩
    · have hw2 : w = (((requestLayout config).length : Int), none) := by
        simp only [not_or, not_not] at hw
        exact Prod.ext hw.1 hw.2
      have hs := sendConnectData_ok t ⟨⟨s0, []⟩, config⟩ s1 (hw2 ▸ hwrite)
      have hr := hrecv ⟨⟨s1, [] ++ [Event.write (requestLayout config)]⟩, config⟩ rfl
      exact ⟨_, _, by rw [connect, hs]; simp only [Option.some_bind]; rw [hr]; rfl⟩
  refine ⟨fun c hc => ?_, hconn, ?_⟩
  · rw [hrecv c hc]
    simp
  · obtain ⟨e, c1, he⟩ := hconn
    exact ⟨e, by simp [NewClient, hdial, he]⟩

/-- The response `0x01 0x01 0x00` to the end-to-end scenario. -/
theorem c5_status_gate_witness :
    (∀ c : Client (List (List Byte)), c.serverConn.state = [[0x01, 0x01, 0x00]] →
      (receiveOk stream c).1 ≠ none ∧
      (receiveOk stream c).2.serverConn.trace
        = c.serverConn.trace ++ [Event.read 1, Event.read 1]) ∧
    (∃ e c1, connect stream ⟨⟨[[0x01, 0x01, 0x00]], []⟩, bobConfig⟩ = some (some e, c1)) ∧
    (∃ e, NewClient (dialStream [[0x01, 0x01, 0x00]]) stream bobConfig
      = some (none, some e)) :=
  c5_status_gate (dialStream [[0x01, 0x01, 0x00]]) stream bobConfig
    [[0x01, 0x01, 0x00]] [[0x01, 0x01, 0x00]] [[0x01, 0x00]] [[0x00]]
    (((requestLayout bobConfig).length : Int), none) 0x01 rfl rfl rfl rfl (by decide)

/-- C6, as stated, fails: the response `01 00 02 07 08` delivered as `01`, `00 02`, `07`,
`08` is rejected with a message-read error, while the same bytes delivered contiguously
are accepted. -/
theorem c6_fragmented_message_differs :
    [[0x01], [0x00, 0x02], [0x07], [0x08]].flatten = [[(0x01 : Byte), 0x00, 0x02, 0x07, 0x08]].flatten ∧
    (receiveOk stream ⟨⟨[[0x01], [0x00, 0x02], [0x07], [0x08]], []⟩, bobConfig⟩).1
      = some "读取消息失败" ∧
    (receiveOk stream ⟨⟨[[0x01, 0x00, 0x02, 0x07, 0x08]], []⟩, bobConfig⟩).1 = none := by
  refine ⟨rfl, ?_, ?_⟩
  · simp [receiveOk, Conn.Read, Conn.Close, stream, streamRead, VER01]
  · simp [receiveOk, Conn.Read, Conn.Close, stream, streamRead, VER01]

/-- C6, amended: for every response `v, st, L, msg` with `L` message bytes and every way
of cutting it into deliveries in which the message bytes arrive within one delivery (the
three header bytes may be cut anywhere; every cut qualifies when `L = 0`), `receiveOk`
returns the same error value and makes the same calls as when the whole response is
delivered contiguously. -/
theorem c6_unsplit_message_same_result (config : Config) (tr : List Event)
    (ds1 ds2 : List (List Byte)) (c1 msg : List Byte) (v st L : Byte)
    (hhead : ds1.flatten ++ c1 = [v, st, L]) (htail : ds2.flatten = [])
    (hL : msg.length = L.val) :
    (ds1 ++ (c1 ++ msg) :: ds2).flatten = [v, st, L] ++ msg ∧
    (receiveOk stream ⟨⟨ds1 ++ (c1 ++ msg) :: ds2, tr⟩, config⟩).1
      = (receiveOk stream ⟨⟨[[v, st, L] ++ msg], tr⟩, config⟩).1 ∧
    (receiveOk stream ⟨⟨ds1 ++ (c1 ++ msg) :: ds2, tr⟩, config⟩).2.serverConn.trace
      = (receiveOk stream ⟨⟨[[v, st, L] ++ msg], tr⟩, config⟩).2.serverConn.trace := by
  have h1 := receiveOk_stream_unsplit config tr ds1 ds2 c1 msg v st L hhead hL
  have h2 := receiveOk_stream_unsplit config tr [] [] [v, st, L] msg v st L rfl hL
  simp only [List.nil_append] at h2
  have h3 := h1.trans h2.symm
  refine ⟨?_, (Prod.ext_iff.mp h3).1, (Prod.ext_iff.mp h3).2⟩
  rw [List.flatten_append, List.flatten_cons, htail, List.append_nil, ← List.append_assoc,
    hhead]

/-- The response `01 00 02 07 08` delivered as `01`, then `00 02 07 08`. -/
theorem c6_unsplit_message_same_result_witness :
    (([[0x01]] ++ ([0x00, 0x02] ++ [0x07, 0x08]) :: [] : List (List Byte))).flatten
      = [0x01, 0x00, 0x02] ++ [0x07, 0x08] ∧
    (receiveOk stream ⟨⟨[[0x01]] ++ ([0x00, 0x02] ++ [0x07, 0x08]) :: [], []⟩, bobConfig⟩).1
      = (receiveOk stream ⟨⟨[[0x01, 0x00, 0x02] ++ [0x07, 0x08]], []⟩, bobConfig⟩).1 ∧
    (receiveOk stream
        ⟨⟨[[0x01]] ++ ([0x00, 0x02] ++ [0x07, 0x08]) :: [], []⟩, bobConfig⟩).2.serverConn.trace
      = (receiveOk stream
        ⟨⟨[[0x01, 0x00, 0x02] ++ [0x07, 0x08]], []⟩, bobConfig⟩).2.serverConn.trace :=
  c6_unsplit_message_same_result bobConfig [] [[0x01]] [] [0x00, 0x02] [0x07, 0x08]
    0x01 0x00 0x02 rfl rfl rfl

/-- C7: for every valid configuration (username, password and host at most 255 bytes,
port in `0..65535`) the bytes produced by the encoder of `sendConnectData`, parsed
according to the request layout, give back the version, username, password, target port,
target type and target host; hence two valid configurations with the same encoding
carry the same request. -/
theorem c7_request_roundtrip (config : Config) (h : config.valid) :
    (∃ b, connectData config = some b ∧
      decodeConnectRequest b.1.data = some config.request) ∧
    (∀ config2 : Config, config2.valid →
      (∃ b, connectData config = some b ∧ connectData config2 = some b) →
      config2.ServerUsername = config.ServerUsername ∧
      config2.ServerPassword = config.ServerPassword ∧
      config2.TargetPort = config.TargetPort ∧
      config2.TargetType = config.TargetType ∧
      config2.TargetHostOrIp = config.TargetHostOrIp) := by
  refine ⟨⟨_, connectData_eq config, decode_requestLayout config h⟩, ?_⟩
  rintro config2 h2 ⟨b, hb, hb2⟩
  rw [connectData_eq] at hb hb2
  have hlay : requestLayout config2 = requestLayout config := by
    have e1 := congrArg (fun x => x.1.data) (Option.some.inj hb)
    have e2 := congrArg (fun x => x.1.data) (Option.some.inj hb2)
    simp only at e1 e2
    rw [e1, e2]
  have hreq : config2.request = config.request := by
    have d1 := decode_requestLayout config h
    have d2 := decode_requestLayout config2 h2
    rw [hlay, d1] at d2
    exact (Option.some.inj d2).symm
  simp only [Config.request, ConnectRequest.mk.injEq] at hreq
  obtain ⟨_, hu, hp, hport, ht, hh⟩ := hreq
  refine ⟨hu, hp, ?_, ht, hh⟩
  have a := h.2.2.2.1
  have b := h2.2.2.2.1
  omega

/-- The end-to-end scenario decodes to its own fields. -/
theorem c7_request_roundtrip_witness :
    bobConfig.valid ∧
    (∃ b, connectData bobConfig = some b ∧
      decodeConnectRequest b.1.data = some bobConfig.request) ∧
    (∀ config2 : Config, config2.valid →
      (∃ b, connectData bobConfig = some b ∧ connectData config2 = some b) →
      config2.ServerUsername = bobConfig.ServerUsername ∧
      config2.ServerPassword = bobConfig.ServerPassword ∧
      config2.TargetPort = bobConfig.TargetPort ∧
      config2.TargetType = bobConfig.TargetType ∧
      config2.TargetHostOrIp = bobConfig.TargetHostOrIp) :=
  ⟨by decide, c7_request_roundtrip bobConfig (by decide)⟩

/-- C8, as stated, fails: with a 3-byte username, a 5-byte password and an empty host the
frame written has 15 bytes, not `16 + len(host) = 16`. -/
theorem c8_frame_has_fifteen_bytes :
    shortConfig.ServerUsername.length = 3 ∧ shortConfig.ServerPassword.length = 5 ∧
    shortConfig.TargetHostOrIp.length ≤ 255 ∧
    ∃ r frame, sendConnectData stream ⟨⟨[], []⟩, shortConfig⟩ = some r ∧
      writes r.2.serverConn.trace = [frame] ∧ frame.length = 15 ∧
      frame.length ≠ 16 + shortConfig.TargetHostOrIp.length := by
  refine ⟨rfl, rfl, by decide, _, requestLayout shortConfig, sendConnectData_stream _, ?_, ?_, ?_⟩
  · simp only [List.nil_append, writes]
  · rfl
  · decide

/-- C8, amended: for every configuration with a 3-byte username and a 5-byte password
(host at most 255 bytes) the frame written by `sendConnectData` has exactly
`1 + 1+3 + 1+5 + 2 + 1 + 1+len(host)` bytes, that is `15 + len(host)`, with the version at
offset 0, the username length at 1, the username at 2..4, the password length at 5, the
password at 6..10, the port at 11..12, the target type at 13, the host length at 14 and
the host from 15 on. -/
theorem c8_frame_length_and_offsets {σ : Type} (t : Transport σ) (c : Client σ)
    (hu : c.config.ServerUsername.length = 3) (hp : c.config.ServerPassword.length = 5)
    (hh : c.config.TargetHostOrIp.length ≤ 255) :
    ∃ r frame, sendConnectData t c = some r ∧
      writes r.2.serverConn.trace = writes c.serverConn.trace ++ [frame] ∧
      frame.length = 1 + (1 + 3) + (1 + 5) + 2 + 1 + (1 + c.config.TargetHostOrIp.length) ∧
      frame.length = 15 + c.config.TargetHostOrIp.length ∧
      frame[0]? = some VER01 ∧
      frame[1]?.map Fin.val = some 3 ∧
      (frame.drop 2).take 3 = c.config.ServerUsername ∧
      frame[5]?.map Fin.val = some 5 ∧
      (frame.drop 6).take 5 = c.config.ServerPassword ∧
      (frame.drop 11).take 2 = PutUint16 (uint16 c.config.TargetPort) ∧
      frame[13]? = some c.config.TargetType ∧
      frame[14]?.map Fin.val = some c.config.TargetHostOrIp.length ∧
      frame.drop 15 = c.config.TargetHostOrIp := by
  have hlen : (requestLayout c.config).length = 15 + c.config.TargetHostOrIp.length := by
    rw [requestLayout_length, dataLength_eq, hu, hp]
  have hbh := byte_val_of_le _ hh
  refine ⟨_, requestLayout c.config, sendConnectData_eq t c, ?_, ?_, hlen, ?_⟩
  · split <;> simp [writes]
  · rw [hlen]; omega
  · obtain ⟨u1, u2, u3, hU⟩ := List.length_eq_three.1 hu
    rcases hP : c.config.ServerPassword with
      _ | ⟨p1, _ | ⟨p2, _ | ⟨p3, _ | ⟨p4, _ | ⟨p5, _ | ⟨p6, ps⟩⟩⟩⟩⟩⟩ <;>
      rw [hP] at hp <;> simp only [List.length_cons, List.length_nil] at hp <;>
      try omega
    simp only [requestLayout, hU, hP, PutUint16, List.length_cons, List.length_nil]
    simp [hbh]
    decide

/-- The sample configuration with an empty host. -/
theorem c8_frame_length_and_offsets_witness :
    ∃ r frame, sendConnectData stream ⟨⟨[], []⟩, shortConfig⟩ = some r ∧
      writes r.2.serverConn.trace = writes [] ++ [frame] ∧
      frame.length = 1 + (1 + 3) + (1 + 5) + 2 + 1 + (1 + shortConfig.TargetHostOrIp.length) ∧
      frame.length = 15 + shortConfig.TargetHostOrIp.length ∧
      frame[0]? = some VER01 ∧
      frame[1]?.map Fin.val = some 3 ∧
      (frame.drop 2).take 3 = shortConfig.ServerUsername ∧
      frame[5]?.map Fin.val = some 5 ∧
      (frame.drop 6).take 5 = shortConfig.ServerPassword ∧
      (frame.drop 11).take 2 = PutUint16 (uint16 shortConfig.TargetPort) ∧
      frame[13]? = some shortConfig.TargetType ∧
      frame[14]?.map Fin.val = some shortConfig.TargetHostOrIp.length ∧
      frame.drop 15 = shortConfig.TargetHostOrIp :=
  c8_frame_length_and_offsets stream ⟨⟨[], []⟩, shortConfig⟩ rfl rfl (by decide)

/-- C9: `NewClient` always returns; it returns a non-nil handle only when the dial
succeeded and the handshake fully succeeded (whole request written, version byte
`VER01`, status byte `0x00`, length byte and full message read), and whenever the dial
or a handshake step fails it returns a nil handle together with a non-nil error. -/
theorem c9_handle_only_after_handshake {σ : Type}
    (dial : List Byte → Int → Except String σ) (t : Transport σ) (config : Config) :
    ∃ r, NewClient dial t config = some r ∧
      (r.1 ≠ none → handshakeSucceeds dial t config) ∧
      (¬ handshakeSucceeds dial t config → r.1 = none ∧ r.2 ≠ none) := by
  cases hd : dial config.ServerHostname config.ServerPort with
  | error e =>
    refine ⟨(none, some e), by simp [NewClient, hd], by simp, by simp⟩
  | ok s0 =>
    have hconn := connect_eq t ⟨⟨s0, []⟩, config⟩
    simp only [List.nil_append] at hconn
    have hsucc : handshakeSucceeds dial t config ↔
        (¬ ((t.Write s0 (requestLayout config)).1.1 ≠ ((requestLayout config).length : Int)
            ∨ (t.Write s0 (requestLayout config)).1.2 ≠ none) ∧
          (receiveOk t ⟨⟨(t.Write s0 (requestLayout config)).2,
            [Event.write (requestLayout config)]⟩, config⟩).1 = none) := by
      rw [receiveOk_none_iff]
      simp only [handshakeSucceeds, hd, not_or, not_not]
    by_cases hw : (t.Write s0 (requestLayout config)).1.1 ≠ ((requestLayout config).length : Int)
        ∨ (t.Write s0 (requestLayout config)).1.2 ≠ none
    · rw [if_pos hw] at hconn
      refine ⟨(none, some "写入数据失败"), by simp [NewClient, hd, hconn], ?_, ?_⟩
      · simp
      · simp
    · rw [if_neg hw] at hconn
      by_cases hr : (receiveOk t ⟨⟨(t.Write s0 (requestLayout config)).2,
            [Event.write (requestLayout config)]⟩, config⟩).1 = none
      · refine ⟨(some (receiveOk t ⟨⟨(t.Write s0 (requestLayout config)).2,
            [Event.write (requestLayout config)]⟩, config⟩).2, none), ?_, ?_, ?_⟩
        · simp only [NewClient, hd, hconn, Option.some_bind]
          simp [hr]
        · intro _
          exact hsucc.2 ⟨hw, hr⟩
        · intro hn
          exact absurd (hsucc.2 ⟨hw, hr⟩) hn
      · refine ⟨(none, (receiveOk t ⟨⟨(t.Write s0 (requestLayout config)).2,
            [Event.write (requestLayout config)]⟩, config⟩).1), ?_, ?_, ?_⟩
        · simp only [NewClient, hd, hconn, Option.some_bind]
          simp [hr]
        · simp
        · intro _
          exact ⟨rfl, hr⟩

/-- C10: whenever `Write` returns a count different from the length of the encoded
request, or an error, `sendConnectData` returns an error and closes the connection, and
`connect` returns that same error; on return the trace holds the one `Write` followed by
`Close` and nothing else, so no `Read` was made and the `Write` was not retried. -/
theorem c10_write_failure {σ : Type} (t : Transport σ) (c : Client σ) (n : Int) (e : Err)
    (s1 : σ)
    (hwrite : t.Write c.serverConn.state (requestLayout c.config) = ((n, e), s1))
    (hbad : n ≠ ((requestLayout c.config).length : Int) ∨ e ≠ none) :
    ∃ err c1, sendConnectData t c = some (some err, c1) ∧
      connect t c = some (some err, c1) ∧
      c1.serverConn.state = t.Close s1 ∧
      c1.serverConn.trace
        = c.serverConn.trace ++ [Event.write (requestLayout c.config), Event.close] ∧
      reads c1.serverConn.trace = reads c.serverConn.trace ∧
      writes c1.serverConn.trace = writes c.serverConn.trace ++ [requestLayout c.config] := by
  have hs := sendConnectData_fail t c n e s1 hwrite hbad
  refine ⟨_, _, hs, ?_, rfl, rfl, ?_, ?_⟩
  · rw [connect, hs]
    rfl
  · simp [reads]
  · simp [writes]

/-- A transport that accepts only five bytes of the 23-byte frame. -/
theorem c10_write_failure_witness :
    ∃ err c1, sendConnectData (shortStream 5) ⟨⟨[[0x01, 0x00, 0x00]], []⟩, bobConfig⟩
        = some (some err, c1) ∧
      connect (shortStream 5) ⟨⟨[[0x01, 0x00, 0x00]], []⟩, bobConfig⟩ = some (some err, c1) ∧
      c1.serverConn.state = (shortStream 5).Close [[0x01, 0x00, 0x00]] ∧
      c1.serverConn.trace = [] ++ [Event.write (requestLayout bobConfig), Event.close] ∧
      reads c1.serverConn.trace = reads [] ∧
      writes c1.serverConn.trace = writes [] ++ [requestLayout bobConfig] :=
  c10_write_failure (shortStream 5) ⟨⟨[[0x01, 0x00, 0x00]], []⟩, bobConfig⟩ 5
    (some "short write") [[0x01, 0x00, 0x00]] rfl (Or.inl (by decide))

/-- C11: whenever one of the four response reads (version, status, message length,
message) returns an error or a count different from the size of its field, in
particular fewer bytes, `receiveOk` returns an error and closes the connection, and the
failed `Read` is the last one: the trace ends with that `Read` followed by `Close`. -/
theorem c11_failed_read_closes {σ : Type} (t : Transport σ) (c : Client σ) :
    (∀ (d : List Byte) (e : Err) (s2 : σ),
      t.Read c.serverConn.state 1 = ((d, e), s2) → (d.length ≠ 1 ∨ e ≠ none) →
      (receiveOk t c).1 ≠ none ∧
      (receiveOk t c).2.serverConn
        = ⟨t.Close s2, c.serverConn.trace ++ [Event.read 1, Event.close]⟩) ∧
    (∀ (d : List Byte) (e : Err) (s2 s3 : σ),
      t.Read c.serverConn.state 1 = (([VER01], none), s2) →
      t.Read s2 1 = ((d, e), s3) → (d.length ≠ 1 ∨ e ≠ none) →
      (receiveOk t c).1 ≠ none ∧
      (receiveOk t c).2.serverConn
        = ⟨t.Close s3, c.serverConn.trace ++ [Event.read 1, Event.read 1, Event.close]⟩) ∧
    (∀ (d : List Byte) (e : Err) (s2 s3 s4 : σ),
      t.Read c.serverConn.state 1 = (([VER01], none), s2) →
      t.Read s2 1 = (([0x00], none), s3) →
      t.Read s3 1 = ((d, e), s4) → (d.length ≠ 1 ∨ e ≠ none) →
      (receiveOk t c).1 ≠ none ∧
      (receiveOk t c).2.serverConn
        = ⟨t.Close s4,
          c.serverConn.trace ++ [Event.read 1, Event.read 1, Event.read 1, Event.close]⟩) ∧
    (∀ (L : Byte) (d : List Byte) (e : Err) (s2 s3 s4 s5 : σ),
      t.Read c.serverConn.state 1 = (([VER01], none), s2) →
      t.Read s2 1 = (([0x00], none), s3) →
      t.Read s3 1 = (([L], none), s4) →
      t.Read s4 L.val = ((d, e), s5) → (d.length ≠ L.val ∨ e ≠ none) →
      (receiveOk t c).1 ≠ none ∧
      (receiveOk t c).2.serverConn
        = ⟨t.Close s5,
          c.serverConn.trace
            ++ [Event.read 1, Event.read 1, Event.read 1, Event.read L.val, Event.close]⟩) := by
  have hnat : ∀ a b : Nat, ((a : Int) ≠ (b : Int)) ↔ a ≠ b := by
    intro a b; omega
  have hone : ∀ a : Nat, ((a : Int) ≠ 1) ↔ a ≠ 1 := by
    intro a; omega
  refine ⟨?_, ?_, ?_, ?_⟩
  · intro d e s2 h1 hbad
    simp only [receiveOk, Conn.Read, Conn.Close, hnat, hone, h1, if_pos hbad]
    simp
  · intro d e s2 s3 h1 h2 hbad
    simp only [receiveOk, Conn.Read, Conn.Close, hnat, hone, h1, h2, if_pos hbad]
    simp
  · intro d e s2 s3 s4 h1 h2 h3 hbad
    simp only [receiveOk, Conn.Read, Conn.Close, hnat, hone, h1, h2, h3, if_pos hbad]
    simp
  · intro L d e s2 s3 s4 s5 h1 h2 h3 h4 hbad
    simp only [receiveOk, Conn.Read, Conn.Close, hnat, hone, h1, h2, h3]
    simp [h4, hbad]

/-- The four reads cut short, one field at a time, on the stream transport: end of
stream before the version, before the status, before the length, and a two-byte message
of which one byte arrives. -/
theorem c11_failed_read_closes_witness :
    ((receiveOk stream ⟨⟨[], []⟩, bobConfig⟩).1 ≠ none ∧
      (receiveOk stream ⟨⟨[], []⟩, bobConfig⟩).2.serverConn
        = ⟨stream.Close [], [] ++ [Event.read 1, Event.close]⟩) ∧
    ((receiveOk stream ⟨⟨[[0x01]], []⟩, bobConfig⟩).1 ≠ none ∧
      (receiveOk stream ⟨⟨[[0x01]], []⟩, bobConfig⟩).2.serverConn
        = ⟨stream.Close [], [] ++ [Event.read 1, Event.read 1, Event.close]⟩) ∧
    ((receiveOk stream ⟨⟨[[0x01, 0x00]], []⟩, bobConfig⟩).1 ≠ none ∧
      (receiveOk stream ⟨⟨[[0x01, 0x00]], []⟩, bobConfig⟩).2.serverConn
        = ⟨stream.Close [],
          [] ++ [Event.read 1, Event.read 1, Event.read 1, Event.close]⟩) ∧
    ((receiveOk stream ⟨⟨[[0x01, 0x00, 0x02, 0x07]], []⟩, bobConfig⟩).1 ≠ none ∧
      (receiveOk stream ⟨⟨[[0x01, 0x00, 0x02, 0x07]], []⟩, bobConfig⟩).2.serverConn
        = ⟨stream.Close [[]],
          [] ++ [Event.read 1, Event.read 1, Event.read 1, Event.read 2, Event.close]⟩) :=
  ⟨(c11_failed_read_closes stream ⟨⟨[], []⟩, bobConfig⟩).1
      [] (some "EOF") [] rfl (Or.inl (by decide)),
    (c11_failed_read_closes stream ⟨⟨[[0x01]], []⟩, bobConfig⟩).2.1
      [] (some "EOF") [[]] [] rfl rfl (Or.inl (by decide)),
    (c11_failed_read_closes stream ⟨⟨[[0x01, 0x00]], []⟩, bobConfig⟩).2.2.1
      [] (some "EOF") [[0x00]] [[]] [] rfl rfl rfl (Or.inl (by decide)),
    (c11_failed_read_closes stream ⟨⟨[[0x01, 0x00, 0x02, 0x07]], []⟩, bobConfig⟩).2.2.2
      0x02 [0x07] none [[0x00, 0x02, 0x07]] [[0x02, 0x07]] [[0x07]] [[]]
      rfl rfl rfl rfl (Or.inl (by decide))⟩

/-- C12: in every run of `Bind`, whatever the two calls of `io.Copy` return (a count
with a nil error or with an I/O error), a return of `Bind` carries the nil error; and
from every reachable state in which the caller is inside its copy, whatever that copy
returns, `Bind` returns nil after the deferred `Close`. -/
theorem c12_bind_returns_nil (sched : List BindAction) (s : BindState)
    (hrun : Bind.run Bind.init sched = some s) :
    (∀ e, s.caller = CallerPc.returned e → e = none) ∧
    (s.caller = CallerPc.copying → ∀ (n : Int) (err : Err),
      ∃ s1, Bind.run s [BindAction.callerCopyReturns n err, BindAction.callerDefer] = some s1 ∧
        s1.caller = CallerPc.returned none) := by
  refine ⟨(Bind.run_invariant sched s hrun).2.1, ?_⟩
  intro hc n err
  obtain ⟨c0, t0, sc0, vc0⟩ := s
  simp only at hc
  subst hc
  exact ⟨⟨CallerPc.returned none, t0, true, vc0⟩, by simp [Bind.run, Bind.step], rfl⟩

/-- The task's copy has failed with an I/O error and the task has ended; the caller is
still copying. -/
theorem c12_bind_returns_nil_witness :
    (∀ e, (⟨CallerPc.copying, TaskPc.done, false, true⟩ : BindState).caller
        = CallerPc.returned e → e = none) ∧
    ((⟨CallerPc.copying, TaskPc.done, false, true⟩ : BindState).caller = CallerPc.copying →
      ∀ (n : Int) (err : Err),
      ∃ s1, Bind.run ⟨CallerPc.copying, TaskPc.done, false, true⟩
          [BindAction.callerCopyReturns n err, BindAction.callerDefer] = some s1 ∧
        s1.caller = CallerPc.returned none) :=
  c12_bind_returns_nil
    [BindAction.go, BindAction.taskCopyReturns 3 (some "connection reset by peer"),
      BindAction.taskDefer]
    ⟨CallerPc.copying, TaskPc.done, false, true⟩ rfl

/-- C14, the code on the response `01 01 00`: the handshake returns the status error
after one `Write` and two `Read`s, `Close` has not been called, and `NewClient` returns a
nil handle with that error, so the caller cannot close the connection either.  On the
response `01`, cut off before the status byte, the branch next to it does call `Close`
before returning its error. -/
theorem c14_status_rejection_without_close :
    (∃ r, connect stream ⟨⟨[[0x01, 0x01, 0x00]], []⟩, bobConfig⟩ = some r ∧
      r.1 = some "未识别的响应码" ∧
      r.2.serverConn.trace
        = [Event.write (requestLayout bobConfig), Event.read 1, Event.read 1] ∧
      Event.close ∉ r.2.serverConn.trace) ∧
    NewClient (dialStream [[0x01, 0x01, 0x00]]) stream bobConfig
      = some (none, some "未识别的响应码") ∧
    (∃ r, connect stream ⟨⟨[[0x01]], []⟩, bobConfig⟩ = some r ∧
      r.1 = some "读取响应码失败" ∧
      r.2.serverConn.trace
        = [Event.write (requestLayout bobConfig), Event.read 1, Event.read 1,
          Event.close]) := by
  have hs := sendConnectData_stream ⟨⟨[[0x01, 0x01, 0x00]], []⟩, bobConfig⟩
  have hr := receiveOk_status stream
    ⟨⟨[[0x01, 0x01, 0x00]], [Event.write (requestLayout bobConfig)]⟩, bobConfig⟩
    [[0x01, 0x00]] [[0x00]] 0x01 rfl rfl (by decide)
  simp only [List.nil_append, List.singleton_append, List.cons_append] at hs hr
  have hconn : connect stream ⟨⟨[[0x01, 0x01, 0x00]], []⟩, bobConfig⟩
      = some (some "未识别的响应码",
        ⟨⟨[[0x00]], [Event.write (requestLayout bobConfig), Event.read 1, Event.read 1]⟩,
          bobConfig⟩) := by
    rw [connect, hs]
    simp only [Option.some_bind]
    rw [hr]
    rfl
  have hcut : connect stream ⟨⟨[[0x01]], []⟩, bobConfig⟩
      = some (some "读取响应码失败",
        ⟨⟨[], [Event.write (requestLayout bobConfig), Event.read 1, Event.read 1,
          Event.close]⟩, bobConfig⟩) := by
    rw [connect_eq]
    rfl
  refine ⟨⟨_, hconn, rfl, rfl, by simp⟩, ?_, ⟨_, hcut, rfl, rfl⟩⟩
  simp [NewClient, dialStream, hconn]

/-- C15: when the version byte is read successfully but differs from `VER01`,
`receiveOk` returns its error without calling `Close`: the connection is in the state
the `Read` left it in, the trace grows by that one `Read`, and a connection that was
open before is still open. -/
theorem c15_version_mismatch_leaves_open {σ : Type} (t : Transport σ) (c : Client σ)
    (s2 : σ) (b : Byte)
    (hver : t.Read c.serverConn.state 1 = (([b], none), s2)) (hb : b ≠ VER01) :
    (receiveOk t c).1 = some "不支持的协议版本" ∧
      (receiveOk t c).2.serverConn.state = s2 ∧
      (receiveOk t c).2.serverConn.trace = c.serverConn.trace ++ [Event.read 1] ∧
      (Event.close ∉ c.serverConn.trace →
        Event.close ∉ (receiveOk t c).2.serverConn.trace) := by
  rw [receiveOk_version t c s2 b hver hb]
  simp

/-- A response that starts with the byte `0x07`, on a fresh connection. -/
theorem c15_version_mismatch_leaves_open_witness :
    (receiveOk stream ⟨⟨[[0x07, 0x00, 0x00]], []⟩, bobConfig⟩).1 = some "不支持的协议版本" ∧
      (receiveOk stream ⟨⟨[[0x07, 0x00, 0x00]], []⟩, bobConfig⟩).2.serverConn.state
        = [[0x00, 0x00]] ∧
      (receiveOk stream ⟨⟨[[0x07, 0x00, 0x00]], []⟩, bobConfig⟩).2.serverConn.trace
        = [] ++ [Event.read 1] ∧
      (Event.close ∉ ([] : List Event) →
        Event.close ∉
          (receiveOk stream ⟨⟨[[0x07, 0x00, 0x00]], []⟩, bobConfig⟩).2.serverConn.trace) :=
  c15_version_mismatch_leaves_open stream ⟨⟨[[0x07, 0x00, 0x00]], []⟩, bobConfig⟩
    [[0x00, 0x00]] 0x07 rfl (by decide)

/-- C16: every run of `connect` returns, and its calls on the connection are exactly
one `Write`, carrying the entire encoded request, followed by at most four `Read`s (and
at most one `Close`, as the last call); a `Read` is made only when the `Write` has
returned the full length of the request with a nil error. -/
theorem c16_one_write_then_reads {σ : Type} (t : Transport σ) (c : Client σ) :
    ∃ r evs, connect t c = some r ∧
      r.2.serverConn.trace
        = c.serverConn.trace ++ Event.write (requestLayout c.config) :: evs ∧
      writes evs = [] ∧
      (reads evs).length ≤ 4 ∧
      (Event.close ∈ evs → ∃ rs : List Nat, evs = rs.map Event.read ++ [Event.close]) ∧
      (Event.close ∉ evs → ∃ rs : List Nat, evs = rs.map Event.read) ∧
      (reads evs ≠ [] →
        (t.Write c.serverConn.state (requestLayout c.config)).1
          = (((requestLayout c.config).length : Int), none)) := by
  obtain ⟨r, evs, hc, htr, hcases⟩ := connect_shape t c
  refine ⟨r, evs, hc, htr, ?_⟩
  rcases hcases with ⟨_, _, hev⟩ | ⟨hok, ⟨_, hev⟩ | ⟨_, hev⟩ | ⟨_, hev⟩ | ⟨_, hev⟩ |
      ⟨_, hev⟩ | ⟨L, _, hev⟩ | ⟨L, _, hev⟩⟩
  · subst hev
    exact ⟨rfl, by simp [reads], fun _ => ⟨[], rfl⟩, fun h => absurd (by simp) h,
      fun h => absurd rfl h⟩
  · subst hev
    exact ⟨rfl, by simp [reads], fun _ => ⟨[1], rfl⟩, fun h => absurd (by simp) h,
      fun _ => hok⟩
  · subst hev
    exact ⟨rfl, by simp [reads], fun h => absurd h (by simp), fun _ => ⟨[1], rfl⟩,
      fun _ => hok⟩
  · subst hev
    exact ⟨rfl, by simp [reads], fun _ => ⟨[1, 1], rfl⟩, fun h => absurd (by simp) h,
      fun _ => hok⟩
  · subst hev
    exact ⟨rfl, by simp [reads], fun h => absurd h (by simp), fun _ => ⟨[1, 1], rfl⟩,
      fun _ => hok⟩
  · subst hev
    exact ⟨rfl, by simp [reads], fun _ => ⟨[1, 1, 1], rfl⟩, fun h => absurd (by simp) h,
      fun _ => hok⟩
  · subst hev
    exact ⟨rfl, by simp [reads], fun _ => ⟨[1, 1, 1, L], rfl⟩, fun h => absurd (by simp) h,
      fun _ => hok⟩
  · subst hev
    exact ⟨rfl, by simp [reads], fun h => absurd h (by simp), fun _ => ⟨[1, 1, 1, L], rfl⟩,
      fun _ => hok⟩

/-- C17: whenever `receiveOk` succeeds on a response stream, with message-length byte
`L`, it has made the four reads of sizes 1, 1, 1 and `L`, and the bytes of the stream are
`VER01`, `0x00`, `L`, the `L` message bytes, and then, untouched, the bytes that the
connection still holds: exactly `3 + L` bytes were taken off the stream. -/
theorem c17_consumes_exactly (config : Config) (tr : List Event) (ds : List (List Byte))
    (h : (receiveOk stream ⟨⟨ds, tr⟩, config⟩).1 = none) :
    ∃ (L : Byte) (msg : List Byte), msg.length = L.val ∧
      ds.flatten = [VER01, 0x00, L] ++ msg
        ++ (receiveOk stream ⟨⟨ds, tr⟩, config⟩).2.serverConn.state.flatten ∧
      (receiveOk stream ⟨⟨ds, tr⟩, config⟩).2.serverConn.state.flatten
        = ds.flatten.drop (3 + L.val) ∧
      (receiveOk stream ⟨⟨ds, tr⟩, config⟩).2.serverConn.trace
        = tr ++ [Event.read 1, Event.read 1, Event.read 1, Event.read L.val] := by
  obtain ⟨⟨h1, e1⟩, ⟨h2, e2⟩, ⟨h3, e3⟩, h4, e4⟩ :=
    (receiveOk_none_iff stream ⟨⟨ds, tr⟩, config⟩).1 h
  simp only [stream] at h1 e1 h2 e2 h3 e3 h4 e4
  obtain ⟨L, hL⟩ := List.length_eq_one.1 h3
  rw [hL] at h4 e4
  simp only [List.headD_cons] at h4 e4
  have c1 := streamRead_conserves ds 1
  have c2 := streamRead_conserves (streamRead ds 1).2 1
  have c3 := streamRead_conserves (streamRead (streamRead ds 1).2 1).2 1
  have c4 := streamRead_conserves (streamRead (streamRead (streamRead ds 1).2 1).2 1).2 L.val
  rw [h1] at c1
  rw [h2] at c2
  rw [hL] at c3
  have hres := receiveOk_ok stream ⟨⟨ds, tr⟩, config⟩ (streamRead ds 1).2
    (streamRead (streamRead ds 1).2 1).2
    (streamRead (streamRead (streamRead ds 1).2 1).2 1).2
    (streamRead (streamRead (streamRead (streamRead ds 1).2 1).2 1).2 L.val).2 L
    (streamRead (streamRead (streamRead (streamRead ds 1).2 1).2 1).2 L.val).1.1
    (Prod.ext (Prod.ext h1 e1) rfl) (Prod.ext (Prod.ext h2 e2) rfl)
    (Prod.ext (Prod.ext hL e3) rfl) (Prod.ext (Prod.ext rfl e4) rfl) h4
  rw [hres]
  have hflat : ds.flatten = [VER01, 0x00, L]
      ++ (streamRead (streamRead (streamRead (streamRead ds 1).2 1).2 1).2 L.val).1.1
      ++ (streamRead (streamRead (streamRead (streamRead ds 1).2 1).2 1).2 L.val).2.flatten := by
    rw [← c1, ← c2, ← c3, ← c4]
    simp
  refine ⟨L, _, h4, hflat, ?_, rfl⟩
  simp only
  rw [hflat, List.drop_append_of_le_length (by simp [h4]; omega)]
  rw [List.drop_of_length_le (by simp [h4]; omega), List.nil_append]

/-- The response `01 00 02 07 08` followed at once by two bytes of relayed data: the two
bytes stay on the connection. -/
theorem c17_consumes_exactly_witness :
    ∃ (L : Byte) (msg : List Byte), msg.length = L.val ∧
      [[(0x01 : Byte), 0x00, 0x02, 0x07, 0x08, 0x2a, 0x2b]].flatten = [VER01, 0x00, L] ++ msg
        ++ (receiveOk stream ⟨⟨[[0x01, 0x00, 0x02, 0x07, 0x08, 0x2a, 0x2b]], []⟩,
          bobConfig⟩).2.serverConn.state.flatten ∧
      (receiveOk stream ⟨⟨[[0x01, 0x00, 0x02, 0x07, 0x08, 0x2a, 0x2b]], []⟩,
          bobConfig⟩).2.serverConn.state.flatten
        = [[(0x01 : Byte), 0x00, 0x02, 0x07, 0x08, 0x2a, 0x2b]].flatten.drop (3 + L.val) ∧
      (receiveOk stream ⟨⟨[[0x01, 0x00, 0x02, 0x07, 0x08, 0x2a, 0x2b]], []⟩,
          bobConfig⟩).2.serverConn.trace
        = [] ++ [Event.read 1, Event.read 1, Event.read 1, Event.read L.val] :=
  c17_consumes_exactly bobConfig [] [[0x01, 0x00, 0x02, 0x07, 0x08, 0x2a, 0x2b]]
    (by simp [receiveOk, Conn.Read, Conn.Close, stream, streamRead, VER01])

/-- C18, as stated, fails: for the end-to-end scenario the final index is 23, which is
`dataLength`, and not `6 + 3 + 2 + 11 = 22`. -/
theorem c18_final_index_is_twenty_three :
    ∃ b idx, connectData bobConfig = some (b, idx) ∧ idx = 23 ∧ dataLength bobConfig = 23 ∧
      idx ≠ 6 + bobConfig.ServerUsername.length + bobConfig.ServerPassword.length
        + bobConfig.TargetHostOrIp.length :=
  ⟨_, _, connectData_eq bobConfig, rfl, rfl, by decide⟩

/-- C18, amended: for every configuration, with no bound on the lengths of username,
password and host, the encoder does not panic: every store `data[index] = d` is within
the bounds of the buffer, the stores go to the positions `0, 1, ..., dataLength - 1` in
this order, so each position is written exactly once, and the final index is
`dataLength = 7 + len(username) + len(password) + len(host)`, the length of the buffer. -/
theorem c18_stores_in_bounds (config : Config) :
    ∃ b idx, connectData config = some (b, idx) ∧
      b.data.length = dataLength config ∧
      b.stores = List.range (dataLength config) ∧
      (∀ i ∈ b.stores, i < b.data.length) ∧
      (∀ i, i < b.data.length → b.stores.count i = 1) ∧
      idx = dataLength config ∧
      dataLength config = 7 + config.ServerUsername.length + config.ServerPassword.length
        + config.TargetHostOrIp.length := by
  refine ⟨_, _, connectData_eq config, requestLayout_length config, rfl, ?_, ?_, rfl,
    dataLength_eq config⟩
  · intro i hi
    simp only [List.mem_range] at hi
    simp only [requestLayout_length]
    exact hi
  · intro i hi
    simp only [requestLayout_length] at hi
    exact List.count_eq_one_of_mem (List.nodup_range _) (List.mem_range.2 hi)

/-- C19, as stated, fails: with a 256-byte username, an empty password and an empty host
the frame written has 263 bytes, not `6 + 256 + 0 + 0 = 262`. -/
theorem c19_oversized_frame_has_seven_more :
    256 ≤ longUserClient.config.ServerUsername.length ∧
    ∃ r frame, sendConnectData stream longUserClient = some r ∧
      writes r.2.serverConn.trace = [frame] ∧ frame.length = 263 ∧
      frame.length ≠ 6 + longUserClient.config.ServerUsername.length
        + longUserClient.config.ServerPassword.length
        + longUserClient.config.TargetHostOrIp.length := by
  have hlen : (requestLayout longUserClient.config).length = 263 := by
    rw [requestLayout_length, dataLength_eq]
    simp only [longUserClient, longUserConfig, List.length_replicate, List.length_nil]
  refine ⟨?_, _, requestLayout longUserClient.config, sendConnectData_stream _, ?_, hlen, ?_⟩
  · simp only [longUserClient, longUserConfig, List.length_replicate]
    decide
  · simp only [longUserClient, List.nil_append, writes]
  · rw [hlen]
    simp only [longUserClient, longUserConfig, List.length_replicate, List.length_nil]
    decide

/-- C19, amended: for a username, password or host of length `n ≥ 256`,
`sendConnectData` writes one frame of `7 + len(username) + len(password) + len(host)`
bytes in which every length byte is the field length modulo 256 and every field is
present in full at its place; the length bytes no longer describe the field boundaries:
the frame does not decode, by the request layout, to the request of the configuration. -/
theorem c19_oversized_length_byte_wraps {σ : Type} (t : Transport σ) (c : Client σ)
    (hbig : 256 ≤ c.config.ServerUsername.length ∨ 256 ≤ c.config.ServerPassword.length
      ∨ 256 ≤ c.config.TargetHostOrIp.length) :
    ∃ r frame, sendConnectData t c = some r ∧
      writes r.2.serverConn.trace = writes c.serverConn.trace ++ [frame] ∧
      frame.length = 7 + c.config.ServerUsername.length + c.config.ServerPassword.length
        + c.config.TargetHostOrIp.length ∧
      frame[1]?.map Fin.val = some (c.config.ServerUsername.length % 256) ∧
      (frame.drop 2).take c.config.ServerUsername.length = c.config.ServerUsername ∧
      frame[2 + c.config.ServerUsername.length]?.map Fin.val
        = some (c.config.ServerPassword.length % 256) ∧
      (frame.drop (3 + c.config.ServerUsername.length)).take c.config.ServerPassword.length
        = c.config.ServerPassword ∧
      frame[6 + c.config.ServerUsername.length + c.config.ServerPassword.length]?.map Fin.val
        = some (c.config.TargetHostOrIp.length % 256) ∧
      frame.drop (7 + c.config.ServerUsername.length + c.config.ServerPassword.length)
        = c.config.TargetHostOrIp ∧
      decodeConnectRequest frame ≠ some c.config.request := by
  refine ⟨_, requestLayout c.config, sendConnectData_eq t c, ?_, ?_, ?_, ?_, ?_, ?_, ?_, ?_, ?_⟩
  · split <;> simp [writes]
  · rw [requestLayout_length, dataLength_eq]
  · simp [requestLayout, byte]
  · have e : requestLayout c.config = [VER01, byte c.config.ServerUsername.length]
        ++ (c.config.ServerUsername ++ ([byte c.config.ServerPassword.length]
          ++ c.config.ServerPassword ++ PutUint16 (uint16 c.config.TargetPort)
          ++ [c.config.TargetType, byte c.config.TargetHostOrIp.length]
          ++ c.config.TargetHostOrIp)) := by
      simp [requestLayout]
    rw [e, drop_append_at [VER01, byte c.config.ServerUsername.length] _ 2 rfl,
      take_append_at _ _ _ rfl]
  · have e : requestLayout c.config
        = ([VER01, byte c.config.ServerUsername.length] ++ c.config.ServerUsername)
          ++ byte c.config.ServerPassword.length :: (c.config.ServerPassword
            ++ PutUint16 (uint16 c.config.TargetPort)
            ++ [c.config.TargetType, byte c.config.TargetHostOrIp.length]
            ++ c.config.TargetHostOrIp) := by
      simp [requestLayout]
    rw [e, getElem?_append_cons_at _ _ _ _
      (by simp only [List.length_append, List.length_cons, List.length_nil])]
    simp [byte]
  · have e : requestLayout c.config
        = ([VER01, byte c.config.ServerUsername.length] ++ c.config.ServerUsername
            ++ [byte c.config.ServerPassword.length])
          ++ (c.config.ServerPassword ++ (PutUint16 (uint16 c.config.TargetPort)
            ++ [c.config.TargetType, byte c.config.TargetHostOrIp.length]
            ++ c.config.TargetHostOrIp)) := by
      simp [requestLayout]
    rw [e, drop_append_at _ _ _
      (by simp only [List.length_append, List.length_cons, List.length_nil, PutUint16]
          omega),
      take_append_at _ _ _ rfl]
  · have e : requestLayout c.config
        = ([VER01, byte c.config.ServerUsername.length] ++ c.config.ServerUsername
            ++ [byte c.config.ServerPassword.length] ++ c.config.ServerPassword
            ++ PutUint16 (uint16 c.config.TargetPort) ++ [c.config.TargetType])
          ++ byte c.config.TargetHostOrIp.length :: c.config.TargetHostOrIp := by
      simp [requestLayout]
    rw [e, getElem?_append_cons_at _ _ _ _
      (by simp only [List.length_append, List.length_cons, List.length_nil, PutUint16]
          omega)]
    simp [byte]
  · have e : requestLayout c.config
        = ([VER01, byte c.config.ServerUsername.length] ++ c.config.ServerUsername
            ++ [byte c.config.ServerPassword.length] ++ c.config.ServerPassword
            ++ PutUint16 (uint16 c.config.TargetPort)
            ++ [c.config.TargetType, byte c.config.TargetHostOrIp.length])
          ++ c.config.TargetHostOrIp := by
      simp [requestLayout]
    rw [e, drop_append_at _ _ _
      (by simp only [List.length_append, List.length_cons, List.length_nil, PutUint16]
          omega)]
  · intro hdec
    have hl := decode_field_lengths _ _ hdec
    simp only [Config.request] at hl
    omega

/-- The 256-byte username: its length byte is `0`. -/
theorem c19_oversized_length_byte_wraps_witness :
    ∃ r frame, sendConnectData stream longUserClient = some r ∧
      writes r.2.serverConn.trace = writes longUserClient.serverConn.trace ++ [frame] ∧
      frame.length = 7 + longUserClient.config.ServerUsername.length
        + longUserClient.config.ServerPassword.length
        + longUserClient.config.TargetHostOrIp.length ∧
      frame[1]?.map Fin.val = some (longUserClient.config.ServerUsername.length % 256) ∧
      (frame.drop 2).take longUserClient.config.ServerUsername.length
        = longUserClient.config.ServerUsername ∧
      frame[2 + longUserClient.config.ServerUsername.length]?.map Fin.val
        = some (longUserClient.config.ServerPassword.length % 256) ∧
      (frame.drop (3 + longUserClient.config.ServerUsername.length)).take
          longUserClient.config.ServerPassword.length
        = longUserClient.config.ServerPassword ∧
      frame[6 + longUserClient.config.ServerUsername.length
          + longUserClient.config.ServerPassword.length]?.map Fin.val
        = some (longUserClient.config.TargetHostOrIp.length % 256) ∧
      frame.drop (7 + longUserClient.config.ServerUsername.length
          + longUserClient.config.ServerPassword.length)
        = longUserClient.config.TargetHostOrIp ∧
      decodeConnectRequest frame ≠ some longUserClient.config.request :=
  c19_oversized_length_byte_wraps stream longUserClient
    (Or.inl (by simp only [longUserClient, longUserConfig, List.length_replicate]; decide))

/-- C20: for every integer target port `p` the frame written by `sendConnectData` holds,
right after the password, the two bytes `(p mod 65536) / 256` and `p mod 256`, the
big-endian representation of `p mod 65536`; for `0 ≤ p ≤ 65535` they decode back to `p`;
a port outside that range is not rejected: an error is returned only when the `Write`
does not report the full frame length with a nil error. -/
theorem c20_port_bytes {σ : Type} (t : Transport σ) (c : Client σ) :
    ∃ r frame hi lo, sendConnectData t c = some r ∧
      writes r.2.serverConn.trace = writes c.serverConn.trace ++ [frame] ∧
      frame[3 + c.config.ServerUsername.length + c.config.ServerPassword.length]? = some hi ∧
      frame[4 + c.config.ServerUsername.length + c.config.ServerPassword.length]? = some lo ∧
      (hi.val : Int) = (c.config.TargetPort % 65536) / 256 ∧
      (lo.val : Int) = c.config.TargetPort % 256 ∧
      (hi.val : Int) * 256 + (lo.val : Int) = c.config.TargetPort % 65536 ∧
      (0 ≤ c.config.TargetPort → c.config.TargetPort ≤ 65535 →
        (hi.val : Int) * 256 + (lo.val : Int) = c.config.TargetPort) ∧
      (r.1 = none ↔
        (t.Write c.serverConn.state frame).1 = ((frame.length : Int), none)) := by
  have hv : ((uint16 c.config.TargetPort : Nat) : Int) = c.config.TargetPort % 65536 := by
    simp only [uint16]
    omega
  have hhi : (byte (uint16 c.config.TargetPort / 2 ^ 8)).val
      = uint16 c.config.TargetPort / 256 % 256 := by
    simp [byte]
  have hlo : (byte (uint16 c.config.TargetPort)).val = uint16 c.config.TargetPort % 256 := by
    simp [byte]
  refine ⟨_, requestLayout c.config, byte (uint16 c.config.TargetPort / 2 ^ 8),
    byte (uint16 c.config.TargetPort), sendConnectData_eq t c, ?_, ?_, ?_, ?_, ?_, ?_, ?_, ?_⟩
  · split <;> simp [writes]
  · have e : requestLayout c.config
        = ([VER01, byte c.config.ServerUsername.length] ++ c.config.ServerUsername
            ++ [byte c.config.ServerPassword.length] ++ c.config.ServerPassword)
          ++ byte (uint16 c.config.TargetPort / 2 ^ 8) :: (byte (uint16 c.config.TargetPort)
            :: c.config.TargetType :: byte c.config.TargetHostOrIp.length
            :: c.config.TargetHostOrIp) := by
      simp [requestLayout, PutUint16]
    rw [e, getElem?_append_cons_at _ _ _ _
      (by simp only [List.length_append, List.length_cons, List.length_nil]; omega)]
  · have e : requestLayout c.config
        = ([VER01, byte c.config.ServerUsername.length] ++ c.config.ServerUsername
            ++ [byte c.config.ServerPassword.length] ++ c.config.ServerPassword
            ++ [byte (uint16 c.config.TargetPort / 2 ^ 8)])
          ++ byte (uint16 c.config.TargetPort)
            :: (c.config.TargetType :: byte c.config.TargetHostOrIp.length
            :: c.config.TargetHostOrIp) := by
      simp [requestLayout, PutUint16]
    rw [e, getElem?_append_cons_at _ _ _ _
      (by simp only [List.length_append, List.length_cons, List.length_nil]; omega)]
  · rw [hhi]; omega
  · rw [hlo]; omega
  · rw [hhi, hlo]; omega
  · intro h0 h1
    rw [hhi, hlo]; omega
  · rw [requestLayout_length]
    split
    · rename_i hw
      simp only [reduceCtorEq, false_iff]
      intro heq
      rw [heq] at hw
      simp at hw
    · rename_i hw
      simp only [true_iff]
      simp only [not_or, not_not] at hw
      exact Prod.ext hw.1 hw.2

end Tunnel
